import Mathlib

set_option synthInstance.maxHeartbeats 1000000
set_option maxHeartbeats 1000000

/-!
Verification development for the vega-config-tool repository.

This file shallowly embeds the core of the repository in Lean 4:

* the Configuration Model (`BuilderState`) and its compiled declarative
  spec (`VLSpec`), from `src/types` as documented and used throughout;
* the forward compiler `buildSpec` / `buildEncodingChannel` /
  `buildTransforms` / `getDefaultBuilderState` (specBuilder section of
  `src/utils/nlPlanner.ts`, lines 277-518 of the concatenation);
* the best-effort reverse compiler `parseSpecToBuilderState` /
  `parseEncodingChannel` (`src/utils/specParser.ts`);
* the custom-spec classifier `isCustomSpec` (`src/components/panels/AIPanel.tsx`
  lines 66-75, duplicated verbatim in the panels of `src/unnamed/part_002`
  and `src/unnamed/part_003`);
* the plan applier `applyPlan` (`src/utils/nlPlanner.ts` lines 137-270);
* the history manager of the widget store (`src/unnamed/part_004`);
* the field-inference utilities (`src/unnamed/part_005`);
* the pattern-based natural-language planner `parseNLToPlan`
  (`src/utils/nlPlanner.ts` lines 42-132).

Modelling conventions.  JavaScript numbers are modelled as `ℚ` (the
threshold comparisons `n > len * 0.6` and `n < len * 0.5` performed on
IEEE doubles agree with the exact rational comparisons for every sample
size the code can produce, i.e. `len ≤ 100`, because the accumulated
rounding error is far below the distance of `3*len/5` to the nearest
other integer).  JavaScript `undefined` / missing object keys are
modelled as `Option.none`; JavaScript truthiness of an optional string
is `strTruthy`.  `Date.parse` is an external runtime function and enters
the embedding as an explicit boolean parameter `dparse` meaning
`Number.isFinite(Date.parse s)`.
-/

namespace VegaConfig

/-- Semantic field types (`FieldType` in `src/types`). -/
inductive FieldType
  | quantitative
  | nominal
  | ordinal
  | temporal
deriving DecidableEq

/-- Mark types (`MarkType` in `src/types`; the ten values listed in the
MarkPanel of `src/unnamed/part_003` and in the planner's mark regex). -/
inductive MarkType
  | line
  | bar
  | area
  | point
  | circle
  | square
  | tick
  | rect
  | rule
  | text
deriving DecidableEq

/-- Stacking modes (`StackMode` in `src/types`: `'zero' | 'normalize'`;
`null` is modelled as `Option.none` at the use sites). -/
inductive StackMode
  | zero
  | normalize
deriving DecidableEq

/-- Sort orders. -/
inductive SortOrder
  | ascending
  | descending
deriving DecidableEq

/-- Aggregate operations (the `AGGREGATE_OPS` list of `src/unnamed/part_002`). -/
inductive AggOp
  | sum
  | mean
  | median
  | count
  | min
  | max
  | distinct
  | q1
  | q3
deriving DecidableEq

/-- Sort configuration of an encoding channel: either a bare order string
or a `{ field, order }` pair. -/
inductive SortSpec
  | byOrder (o : SortOrder)
  | byField (f : String) (o : SortOrder)
deriving DecidableEq

/-- Bin configuration: boolean flag or `{maxBins}`. -/
inductive BinSpec
  | flag (b : Bool)
  | maxBins (n : ℚ)
deriving DecidableEq

/-- Scale configuration.  `parseEncodingChannel` extracts exactly these five
keys (`src/utils/specParser.ts` lines 148-156). -/
structure ScaleConfig where
  domain : Option (List String)
  range : Option (List String)
  scheme : Option String
  reverse : Option Bool
  zero : Option Bool
deriving DecidableEq

/-- Axis display hints.  Both the compiler (`buildEncodingChannel`) and the
decompiler (`parseEncodingChannel`) project axis objects onto exactly these
six keys. -/
structure AxisConfig where
  title : Option String
  format : Option String
  grid : Option Bool
  labelAngle : Option ℚ
  labelFontSize : Option ℚ
  titleFontSize : Option ℚ
deriving DecidableEq

/-- Legend display hints (four keys, as projected by compiler and decompiler). -/
structure LegendConfig where
  title : Option String
  orient : Option String
  labelFontSize : Option ℚ
  titleFontSize : Option ℚ
deriving DecidableEq

/-- One encoding channel of the Configuration Model (`EncodingConfig` in
`src/types`). -/
structure EncodingConfig where
  field : Option String
  type : Option FieldType
  aggregate : Option AggOp
  bin : Option BinSpec
  timeUnit : Option String
  sort : Option SortSpec
  scale : Option ScaleConfig
  axis : Option AxisConfig
  legend : Option LegendConfig
deriving DecidableEq

/-- The all-absent encoding channel (JS `{}`). -/
def emptyEncodingConfig : EncodingConfig :=
  { field := none, type := none, aggregate := none, bin := none,
    timeUnit := none, sort := none, scale := none, axis := none, legend := none }

/-- Tooltip slot of the Configuration Model: the `'auto'` sentinel or an
explicit list of channel configs. -/
inductive TooltipSetting
  | auto
  | explicit (entries : List EncodingConfig)
deriving DecidableEq

/-- The encodings record of the Configuration Model. -/
structure Encodings where
  x : Option EncodingConfig
  y : Option EncodingConfig
  color : Option EncodingConfig
  size : Option EncodingConfig
  tooltip : Option TooltipSetting
deriving DecidableEq

/-- The empty encodings record (JS `{}`). -/
def emptyEncodings : Encodings :=
  { x := none, y := none, color := none, size := none, tooltip := none }

/-- Chart transforms (`ChartTransform` in `src/types`): tagged union of
filter / topN / calculate / aggregate.  The fields of `calculate` named
`calculate` and `as` in the source are called `expr` and `outName` here
because those words are reserved in Lean. -/
inductive ChartTransform
  | filter (expr : String)
  | topN (n : ℕ) (byField : String) (order : SortOrder)
  | calculate (expr : String) (outName : String)
  | aggregate (ops : List AggOp) (fields : List String) (outNames : List String)
      (groupby : List String)
deriving DecidableEq

/-- Mark configuration of the Configuration Model. -/
structure MarkConfig where
  type : MarkType
  point : Option Bool
  stacked : Option StackMode
  opacity : Option ℚ
  size : Option ℚ
  strokeWidth : Option ℚ
  interpolate : Option String
deriving DecidableEq

/-- Width/height: a number or the `'container'` sentinel. -/
inductive Dimension
  | px (q : ℚ)
  | container
deriving DecidableEq

/-- The Configuration Model (`BuilderState` in `src/types`). -/
structure BuilderState where
  mark : MarkConfig
  encodings : Encodings
  transforms : List ChartTransform
  width : Dimension
  height : Dimension
  title : Option String
  description : Option String
  background : Option String
  padding : Option ℚ
deriving DecidableEq

/-- Statistics attached to an inferred field (`FieldStats` in `src/types`). -/
structure FieldStats where
  nulls : ℕ
  unique : ℕ
  min : Option ℚ
  max : Option ℚ
  topValues : Option (List (String × ℕ))
deriving DecidableEq

/-- Inferred field metadata (`DataField` in `src/types`). -/
structure DataField where
  name : String
  inferredType : FieldType
  stats : FieldStats
deriving DecidableEq

/-! ### The compiled declarative spec (`VLSpec`)

The compiler's output and the decompiler's input: the subset of the
Vega-Lite grammar that the repository reads or writes.  Composition
operators are carried as presence markers (`Option Unit`), exactly the way
`isCustomSpec` treats them (truthiness only). -/

/-- A channel descriptor of the compiled spec (output of
`buildEncodingChannel`, plus the `stack` directive attached afterwards). -/
structure VLChannel where
  field : Option String
  type : Option FieldType
  aggregate : Option AggOp
  bin : Option BinSpec
  timeUnit : Option String
  sort : Option SortSpec
  scale : Option ScaleConfig
  axis : Option AxisConfig
  legend : Option LegendConfig
  stack : Option StackMode
deriving DecidableEq

/-- A tooltip entry of the compiled spec: the compiler emits only
`{field, type}` (auto tooltip) or `{field, type, aggregate, format}`
(explicit tooltip); absent keys are `none`. -/
structure VLTooltipEntry where
  field : Option String
  type : Option FieldType
  aggregate : Option AggOp
  format : Option String
deriving DecidableEq

/-- The encoding block of the compiled spec. -/
structure VLEncoding where
  x : Option VLChannel
  y : Option VLChannel
  color : Option VLChannel
  size : Option VLChannel
  tooltip : Option (List VLTooltipEntry)
deriving DecidableEq

/-- The mark block of the compiled spec. -/
structure VLMark where
  type : MarkType
  tooltip : Bool
  point : Option Bool
  opacity : Option ℚ
  size : Option ℚ
  strokeWidth : Option ℚ
  interpolate : Option String
deriving DecidableEq

/-- Compiled transforms.  `window` models the rank-window transform
`{window: [{op: 'rank', as: '__rank__'}], sort: [{field, order}]}` emitted
for topN (its op and output name are the fixed constants shown). -/
inductive VLTransform
  | filter (expr : String)
  | window (sortField : String) (sortOrder : SortOrder)
  | calculate (expr : String) (outName : String)
  | aggregate (items : List (AggOp × Option String × Option String))
      (groupby : List String)
deriving DecidableEq

/-- Data source of a declarative spec: named table, remote url, or inline
values. -/
inductive VLData
  | named (name : String)
  | url (u : String)
  | values
deriving DecidableEq

/-- The `config.view` / `config.axis` block emitted by the compiler (the
axis font sizes are compile-time constants and are not modelled further). -/
structure VLConfig where
  continuousWidth : Option ℚ
  continuousHeight : Option ℚ
deriving DecidableEq

/-- A declarative spec: the subset of the external grammar that the
repository touches.  `facet`/`layer`/`hconcat`/`vconcat`/`repeatSpec` are
presence markers for the composition operators (the code only tests their
truthiness).  A JS string-valued `mark` is modelled as a `VLMark` whose
optional fields are all `none`, matching how `parseSpecToBuilderState`
normalises it. -/
structure VLSpec where
  schema : String
  width : Option ℚ
  height : Option ℚ
  data : Option VLData
  mark : Option VLMark
  encoding : Option VLEncoding
  transform : Option (List VLTransform)
  config : Option VLConfig
  title : Option String
  description : Option String
  background : Option String
  padding : Option ℚ
  facet : Option Unit
  layer : Option Unit
  hconcat : Option Unit
  vconcat : Option Unit
  repeatSpec : Option Unit
deriving DecidableEq

/-! ### JavaScript helpers -/

/-- Truthiness of an optional JS string: `undefined` and `''` are falsy. -/
def strTruthy : Option String → Bool
  | none => false
  | some s => s ≠ ""

/-- JS `state.encodings.c?.field` truthiness test used by the compiler to
decide whether a channel is populated. -/
def chanPopulated : Option EncodingConfig → Bool
  | none => false
  | some c => strTruthy c.field

/-! ### Forward compiler (`specBuilder`: buildEncodingChannel,
buildTransforms, buildSpec, getDefaultBuilderState) -/

/-- Compile one populated encoding channel (`buildEncodingChannel`).
Truthy guards: `aggregate`/`type` are enum strings, truthy iff present;
`timeUnit` is a string, truthy iff present and nonempty; `bin` and `sort`
are guarded by `!== undefined`; `scale`/`axis`/`legend` are objects, truthy
iff present, with `axis` and `legend` projected onto their fixed key sets. -/
def buildEncodingChannel (c : EncodingConfig) : VLChannel :=
  { field := c.field
    type := c.type
    aggregate := c.aggregate
    bin := c.bin
    timeUnit := match c.timeUnit with
      | some s => if s ≠ "" then some s else none
      | none => none
    sort := c.sort
    scale := c.scale
    axis := c.axis.map fun a =>
      { title := a.title, format := a.format, grid := a.grid,
        labelAngle := a.labelAngle, labelFontSize := a.labelFontSize,
        titleFontSize := a.titleFontSize }
    legend := c.legend.map fun lg =>
      { title := lg.title, orient := lg.orient,
        labelFontSize := lg.labelFontSize, titleFontSize := lg.titleFontSize }
    stack := none }

/-- Compile the transform list (`buildTransforms`), expanding `topN` into
the window-rank/filter pair. -/
def buildTransforms : List ChartTransform → List VLTransform
  | [] => []
  | ChartTransform.filter e :: ts => VLTransform.filter e :: buildTransforms ts
  | ChartTransform.topN n byField order :: ts =>
      VLTransform.window byField order
        :: VLTransform.filter ("datum.__rank__ <= " ++ toString n)
        :: buildTransforms ts
  | ChartTransform.calculate c a :: ts => VLTransform.calculate c a :: buildTransforms ts
  | ChartTransform.aggregate ops fields outs groupby :: ts =>
      VLTransform.aggregate
        ((List.range ops.length).map fun i =>
          (ops.getD i AggOp.sum, fields.get? i, outs.get? i))
        groupby :: buildTransforms ts

/-- Compile the tooltip channel: `'auto'` becomes the first six fields in
dataset order; an explicit list becomes one `{field,type,aggregate,format}`
descriptor per entry (`format` is `t.axis?.format`). -/
def buildTooltip (t : Option TooltipSetting) (fields : List DataField) :
    Option (List VLTooltipEntry) :=
  match t with
  | some TooltipSetting.auto =>
      some ((fields.take 6).map fun f =>
        { field := some f.name, type := some f.inferredType,
          aggregate := none, format := none })
  | some (TooltipSetting.explicit l) =>
      some (l.map fun e =>
        { field := e.field, type := e.type, aggregate := e.aggregate,
          format := e.axis.bind fun a => a.format })
  | none => none

/-- The per-channel emission guard of `buildSpec`: a channel descriptor is
emitted exactly when `state.encodings.c?.field` is truthy. -/
def compileChannel (oc : Option EncodingConfig) : Option VLChannel :=
  match oc with
  | some c => if strTruthy c.field then some (buildEncodingChannel c) else none
  | none => none

/-- The encoding block before the stacking fix-up at the end of `buildSpec`. -/
def baseEncoding (state : BuilderState) (fields : List DataField) : VLEncoding :=
  { x := compileChannel state.encodings.x
    y := compileChannel state.encodings.y
    color := compileChannel state.encodings.color
    size := compileChannel state.encodings.size
    tooltip := buildTooltip state.encodings.tooltip fields }

/-- The stacking fix-up of `buildSpec` (lines 390-396): when `stacked` is
set and the mark is bar or area, attach the stack directive to the y
channel if its compiled type is quantitative, else to the x channel if its
compiled type is quantitative, else drop it. -/
def applyStacking (mark : MarkConfig) (enc : VLEncoding) : VLEncoding :=
  match mark.stacked with
  | none => enc
  | some sm =>
      if mark.type = MarkType.bar ∨ mark.type = MarkType.area then
        if (enc.y.map fun c => c.type).join = some FieldType.quantitative then
          { enc with y := enc.y.map fun c => { c with stack := some sm } }
        else if (enc.x.map fun c => c.type).join = some FieldType.quantitative then
          { enc with x := enc.x.map fun c => { c with stack := some sm } }
        else enc
      else enc

/-- The compiled mark block. -/
def buildMark (m : MarkConfig) : VLMark :=
  { type := m.type
    tooltip := true
    point := m.point
    opacity := m.opacity
    size := m.size
    strokeWidth := m.strokeWidth
    interpolate := match m.interpolate with
      | some s =>
          if s ≠ "" ∧ (m.type = MarkType.line ∨ m.type = MarkType.area) then some s
          else none
      | none => none }

/-- The `$schema` constant of the compiler. -/
def vlSchemaUrl : String := "https://vega.github.io/schema/vega-lite/v5.json"

/-- Forward compiler (`buildSpec` in the specBuilder module): pure function
from (Configuration Model, field metadata) to a declarative spec. -/
def buildSpec (state : BuilderState) (fields : List DataField) : VLSpec :=
  let transforms := buildTransforms state.transforms
  { schema := vlSchemaUrl
    width := match state.width with
      | Dimension.px q => some q
      | Dimension.container => none
    height := match state.height with
      | Dimension.px q => some q
      | Dimension.container => none
    data := some (VLData.named "table")
    mark := some (buildMark state.mark)
    encoding := some (applyStacking state.mark (baseEncoding state fields))
    transform := if transforms.length > 0 then some transforms else none
    config := some
      { continuousWidth := if state.width = Dimension.container then none else some 400
        continuousHeight := if state.height = Dimension.container then none else some 300 }
    title := if strTruthy state.title then state.title else none
    description := if strTruthy state.description then state.description else none
    background := if strTruthy state.background then state.background else none
    padding := state.padding
    facet := none
    layer := none
    hconcat := none
    vconcat := none
    repeatSpec := none }

/-- Default Configuration Model (`getDefaultBuilderState`). -/
def getDefaultBuilderState : BuilderState :=
  { mark := { type := MarkType.bar, point := none, stacked := none,
              opacity := none, size := none, strokeWidth := none, interpolate := none }
    encodings := { emptyEncodings with tooltip := some TooltipSetting.auto }
    transforms := []
    width := Dimension.container
    height := Dimension.px 360
    title := none
    description := none
    background := none
    padding := none }

/-! ### Reverse compiler (`src/utils/specParser.ts`) -/

/-- Decompile one channel descriptor (`parseEncodingChannel`): each key is
copied back under the same guard the source uses (`field`, `type`,
`aggregate`, `timeUnit` truthy; `bin`, `sort` by `!== undefined`; `scale`,
`axis`, `legend` rebuilt from their fixed key sets). -/
def parseEncodingChannel (c : VLChannel) : EncodingConfig :=
  { field := if strTruthy c.field then c.field else none
    type := c.type
    aggregate := c.aggregate
    bin := c.bin
    timeUnit := match c.timeUnit with
      | some s => if s ≠ "" then some s else none
      | none => none
    sort := c.sort
    scale := c.scale.map fun sc =>
      { domain := sc.domain, range := sc.range, scheme := sc.scheme,
        reverse := sc.reverse, zero := sc.zero }
    axis := c.axis.map fun a =>
      { title := a.title, format := a.format, grid := a.grid,
        labelAngle := a.labelAngle, labelFontSize := a.labelFontSize,
        titleFontSize := a.titleFontSize }
    legend := c.legend.map fun lg =>
      { title := lg.title, orient := lg.orient,
        labelFontSize := lg.labelFontSize, titleFontSize := lg.titleFontSize } }

/-- Decompile a tooltip entry.  The source applies `parseEncodingChannel`
to the entry object; a compiled tooltip entry carries only the keys
`field`, `type`, `aggregate` and `format`, and `parseEncodingChannel` never
reads a key named `format`, so only the first three survive. -/
def parseTooltipEntry (e : VLTooltipEntry) : EncodingConfig :=
  { emptyEncodingConfig with
    field := if strTruthy e.field then e.field else none
    type := e.type
    aggregate := e.aggregate }

/-- Decompile the transform list: only `filter` and `calculate` entries are
recovered (guarded by truthiness of their expression key); window/topN and
aggregate transforms are skipped. -/
def parseTransforms : List VLTransform → List ChartTransform
  | [] => []
  | VLTransform.filter e :: ts =>
      if e ≠ "" then ChartTransform.filter e :: parseTransforms ts
      else parseTransforms ts
  | VLTransform.calculate c a :: ts =>
      if c ≠ "" then ChartTransform.calculate c a :: parseTransforms ts
      else parseTransforms ts
  | VLTransform.window _ _ :: ts => parseTransforms ts
  | VLTransform.aggregate _ _ :: ts => parseTransforms ts

/-- Result of the decompiler: `Partial<BuilderState>`.  `encodings` and
`transforms` are always initialised by the source; the other keys are
present only when parsed (`Option`). -/
structure PartialBuilderState where
  mark : Option MarkConfig
  encodings : Encodings
  transforms : List ChartTransform
  width : Option Dimension
  height : Option Dimension
  title : Option String
  description : Option String
  background : Option String
deriving DecidableEq

/-- Reverse compiler (`parseSpecToBuilderState`): best-effort, partial.
Stacking is recovered from whichever axis channel carries a truthy `stack`
directive (y preferred); width/height recover the number or the
`'container'` sentinel when the key is absent. -/
def parseSpecToBuilderState (spec : VLSpec) : PartialBuilderState :=
  { mark := spec.mark.map fun m =>
      { type := m.type
        point := m.point
        stacked := match spec.encoding with
          | some e =>
              (match e.y.bind fun c => c.stack with
               | some s => some s
               | none => e.x.bind fun c => c.stack)
          | none => none
        opacity := none, size := none, strokeWidth := none, interpolate := none }
    encodings := match spec.encoding with
      | some e =>
          { x := e.x.map parseEncodingChannel
            y := e.y.map parseEncodingChannel
            color := e.color.map parseEncodingChannel
            size := e.size.map parseEncodingChannel
            tooltip := e.tooltip.map fun l =>
              TooltipSetting.explicit (l.map parseTooltipEntry) }
      | none => emptyEncodings
    transforms := match spec.transform with
      | some ts => parseTransforms ts
      | none => []
    width := match spec.width with
      | some q => some (Dimension.px q)
      | none => some Dimension.container
    height := match spec.height with
      | some q => some (Dimension.px q)
      | none => some Dimension.container
    title := if strTruthy spec.title then spec.title else none
    description := if strTruthy spec.description then spec.description else none
    background := if strTruthy spec.background then spec.background else none }

/-- JS shallow spread merge `{...base, ...partial}` completing a
`Partial<BuilderState>` against a base model (the store merges decompiler
output this way in `setSpec`). -/
def completeWith (base : BuilderState) (p : PartialBuilderState) : BuilderState :=
  { mark := p.mark.getD base.mark
    encodings := p.encodings
    transforms := p.transforms
    width := p.width.getD base.width
    height := p.height.getD base.height
    title := match p.title with
      | some t => some t
      | none => base.title
    description := match p.description with
      | some t => some t
      | none => base.description
    background := match p.background with
      | some t => some t
      | none => base.background
    padding := base.padding }

/-! ### Custom-spec classifier (`isCustomSpec`, identical in
`AIPanel.tsx`, `part_002` and `part_003`) -/

/-- The classifier: truthy composition key, or more than three transforms,
or a remote (url) data source. -/
def isCustomSpec (spec : VLSpec) : Bool :=
  spec.facet.isSome || spec.layer.isSome || spec.hconcat.isSome ||
  spec.vconcat.isSome || spec.repeatSpec.isSome ||
  (match spec.transform with
   | some ts => decide (ts.length > 3)
   | none => false) ||
  (match spec.data with
   | some (VLData.url _) => true
   | _ => false)

/-! ### Covered projection and representability (for the round-trip claim)

Per the spec's §4.4, the decompiler covers: mark type and point flag,
stacking, the populated channels, filter/calculate transforms,
width/height, title, description and background.  It does not cover the
mark style hints (`opacity`, `size`, `strokeWidth`, `interpolate`) or
`padding`; those are exactly the fields dropped by `coveredView`. -/

/-- A declarative spec restricted to the fields the decompiler covers
(plus the compiler constants, which trivially round-trip). -/
structure CoveredSpec where
  schema : String
  width : Option ℚ
  height : Option ℚ
  data : Option VLData
  markType : Option MarkType
  markTooltip : Option Bool
  markPoint : Option (Option Bool)
  encoding : Option VLEncoding
  transform : Option (List VLTransform)
  config : Option VLConfig
  title : Option String
  description : Option String
  background : Option String
  facet : Option Unit
  layer : Option Unit
  hconcat : Option Unit
  vconcat : Option Unit
  repeatSpec : Option Unit
deriving DecidableEq

/-- Project a spec onto the decompiler-covered fields. -/
def coveredView (s : VLSpec) : CoveredSpec :=
  { schema := s.schema
    width := s.width
    height := s.height
    data := s.data
    markType := s.mark.map fun m => m.type
    markTooltip := s.mark.map fun m => m.tooltip
    markPoint := s.mark.map fun m => m.point
    encoding := s.encoding
    transform := s.transform
    config := s.config
    title := s.title
    description := s.description
    background := s.background
    facet := s.facet
    layer := s.layer
    hconcat := s.hconcat
    vconcat := s.vconcat
    repeatSpec := s.repeatSpec }

/-- A transform is simple when it is a filter or calculate with a nonempty
(truthy) expression — the kinds and wellformedness the decompiler recovers. -/
def simpleTransform : ChartTransform → Bool
  | ChartTransform.filter e => e ≠ ""
  | ChartTransform.calculate e _ => e ≠ ""
  | _ => false

/-- A tooltip slot is simple when it is absent, `'auto'`, or an explicit
list whose entries carry no empty field name and no axis format (the only
entry datum the compiler emits that the decompiler cannot recover). -/
def simpleTooltip : Option TooltipSetting → Bool
  | some (TooltipSetting.explicit l) =>
      l.all fun e => e.field ≠ some "" && (e.axis.bind fun a => a.format) = none
  | _ => true

/-- Representable Configuration Model for the round-trip claim: at most
three simple transforms of kinds filter/calculate and a simple tooltip
slot (the mark is single and composition is inexpressible by construction). -/
def representable (M : BuilderState) : Bool :=
  decide (M.transforms.length ≤ 3) &&
  M.transforms.all simpleTransform &&
  simpleTooltip M.encodings.tooltip

/-! ### Plan applier (`applyPlan`, `src/utils/nlPlanner.ts` lines 137-270) -/

/-- Channel names addressable by edit operations. -/
inductive Channel
  | x
  | y
  | color
  | size
deriving DecidableEq

/-- Options payload of a `set_mark` operation. -/
structure MarkOptions where
  point : Option Bool
  stacked : Option (Option StackMode)
deriving DecidableEq

/-- Edit operations (`Operation` in `src/types`).  `set_sort`'s target is a
raw string (`channelOrField`); `set_top_n`'s `order` and `set_mark`'s
options are optional exactly as in the source. -/
inductive Operation
  | set_mark (mark : MarkType) (options : Option MarkOptions)
  | set_encoding (channel : Channel) (field : String) (ty : Option FieldType)
      (config : Option EncodingConfig)
  | remove_encoding (channel : Channel)
  | set_series_colors (colors : List (String × String))
  | set_color_scheme (scheme : String)
  | set_top_n (n : ℕ) (byField : Option String) (order : Option SortOrder)
  | set_sort (channelOrField : String) (sortBy : Option String) (order : SortOrder)
  | add_filter (expr : String)
  | set_aggregate (channel : Channel) (agg : AggOp)
  | set_title (title : String)
  | set_size (width : Option ℚ) (height : Option ℚ)
deriving DecidableEq

/-- A parsed edit plan (`ChartEditPlan` in `src/types`). -/
structure ChartEditPlan where
  intentText : String
  confidence : ℚ
  operations : List Operation
deriving DecidableEq

/-- Read a channel slot. -/
def getChan (e : Encodings) : Channel → Option EncodingConfig
  | Channel.x => e.x
  | Channel.y => e.y
  | Channel.color => e.color
  | Channel.size => e.size

/-- Write a channel slot. -/
def setChan (e : Encodings) : Channel → Option EncodingConfig → Encodings
  | Channel.x, v => { e with x := v }
  | Channel.y, v => { e with y := v }
  | Channel.color, v => { e with color := v }
  | Channel.size, v => { e with size := v }

/-- JS spread `{...base, ...patch}` of two channel configs, used for the
`...op.config` merge in `set_encoding`. -/
def mergeEncodingConfig (base patch : EncodingConfig) : EncodingConfig :=
  { field := patch.field.orElse fun _ => base.field
    type := patch.type.orElse fun _ => base.type
    aggregate := patch.aggregate.orElse fun _ => base.aggregate
    bin := patch.bin.orElse fun _ => base.bin
    timeUnit := patch.timeUnit.orElse fun _ => base.timeUnit
    sort := patch.sort.orElse fun _ => base.sort
    scale := patch.scale.orElse fun _ => base.scale
    axis := patch.axis.orElse fun _ => base.axis
    legend := patch.legend.orElse fun _ => base.legend }

/-- `dataFields.find(f => f.name === field)?.inferredType`. -/
def getType (dataFields : List DataField) (field : String) : Option FieldType :=
  (dataFields.find? fun f => f.name = field).map fun f => f.inferredType

/-- Apply one edit operation (one arm of the `switch` in `applyPlan`). -/
def applyOp (dataFields : List DataField) (next : BuilderState) :
    Operation → BuilderState
  | Operation.set_mark mark options =>
      { next with mark :=
          { next.mark with
            type := mark
            point := match options with
              | some o => match o.point with
                | some b => some b
                | none => next.mark.point
              | none => next.mark.point
            stacked := match options with
              | some o => match o.stacked with
                | some s => s
                | none => next.mark.stacked
              | none => next.mark.stacked } }
  | Operation.set_encoding channel field ty config =>
      let t := ty.orElse fun _ => getType dataFields field
      let base := (getChan next.encodings channel).getD emptyEncodingConfig
      let merged := { base with field := some field, type := t }
      let final := match config with
        | some patch => mergeEncodingConfig merged patch
        | none => merged
      { next with encodings := setChan next.encodings channel (some final) }
  | Operation.remove_encoding channel =>
      { next with encodings := setChan next.encodings channel none }
  | Operation.set_series_colors colors =>
      let withColor :=
        if (next.encodings.color.map fun c => strTruthy c.field) ≠ some true then
          match dataFields.find? fun f => f.inferredType = FieldType.nominal with
          | some nominal =>
              { next with encodings := { next.encodings with
                  color := some { emptyEncodingConfig with
                    field := some nominal.name, type := some FieldType.nominal } } }
          | none =>
              match dataFields with
              | f0 :: _ =>
                  { next with encodings := { next.encodings with
                      color := some { emptyEncodingConfig with
                        field := some f0.name, type := getType dataFields f0.name } } }
              | [] => next
        else next
      match withColor.encodings.color with
      | some c =>
          let domain := colors.map fun p => p.1
          let range := colors.map fun p => p.2
          let sc := c.scale.getD
            { domain := none, range := none, scheme := none, reverse := none, zero := none }
          { withColor with encodings := { withColor.encodings with
              color := some { c with scale := some { sc with
                domain := some domain, range := some range } } } }
      | none => withColor
  | Operation.set_color_scheme scheme =>
      let withColor :=
        if next.encodings.color.isNone then
          match dataFields.find? fun f => f.inferredType = FieldType.nominal with
          | some nominal =>
              { next with encodings := { next.encodings with
                  color := some { emptyEncodingConfig with
                    field := some nominal.name, type := some FieldType.nominal } } }
          | none => next
        else next
      match withColor.encodings.color with
      | some c =>
          let sc := c.scale.getD
            { domain := none, range := none, scheme := none, reverse := none, zero := none }
          { withColor with encodings := { withColor.encodings with
              color := some { c with scale := some { sc with scheme := some scheme } } } }
      | none => withColor
  | Operation.set_top_n n byField order =>
      let filtered := next.transforms.filter fun t =>
        match t with
        | ChartTransform.topN _ _ _ => false
        | _ => true
      let byv : String := byField.getD
        (((next.encodings.y.bind fun c => c.field).orElse
            fun _ => next.encodings.x.bind fun c => c.field).getD "")
      if byv ≠ "" then
        { next with transforms := filtered ++
            [ChartTransform.topN n byv (order.getD SortOrder.descending)] }
      else
        { next with transforms := filtered }
  | Operation.set_sort channelOrField sortBy order =>
      if channelOrField = "x" ∨ channelOrField = "y" then
        let ch := if channelOrField = "x" then Channel.x else Channel.y
        let cur := (getChan next.encodings ch).getD emptyEncodingConfig
        let newSort := match sortBy with
          | some b => SortSpec.byField b order
          | none => SortSpec.byOrder order
        { next with encodings := (setChan next.encodings ch
            (some { cur with sort := some newSort })) }
      else
        let cur := next.encodings.y.getD emptyEncodingConfig
        { next with encodings := { next.encodings with
            y := some { cur with
              sort := some (SortSpec.byField channelOrField order) } } }
  | Operation.add_filter expr =>
      { next with transforms := next.transforms ++ [ChartTransform.filter expr] }
  | Operation.set_aggregate channel agg =>
      match getChan next.encodings channel with
      | some c =>
          { next with encodings := (setChan next.encodings channel
              (some { c with aggregate := some agg })) }
      | none => next
  | Operation.set_title title =>
      { next with title := some title }
  | Operation.set_size w h =>
      { next with
        width := match w with
          | some q => Dimension.px q
          | none => next.width
        height := match h with
          | some q => Dimension.px q
          | none => next.height }

/-- Apply a plan (`applyPlan`): deep-copy the model (value semantics here)
and fold the operations in list order. -/
def applyPlan (builder : BuilderState) (plan : ChartEditPlan)
    (dataFields : List DataField) : BuilderState :=
  plan.operations.foldl (applyOp dataFields) builder

/-! ### History manager (widget store, `src/unnamed/part_004`) -/

/-- A history snapshot (`StateSnapshot`): deep copies of the Configuration
Model and the compiled spec, a timestamp (modelled by the store clock
standing in for `Date.now()`), and an optional description. -/
structure Snapshot where
  builderState : BuilderState
  spec : VLSpec
  timestamp : ℕ
  description : Option String
deriving DecidableEq

/-- One step of `captureSnapshot` on the raw history state: truncate the
stack to `[0, index]`, append, reset the cursor to the end, and when the
length exceeds 50 keep the last 50 entries (`slice(-50)`) with the cursor
at the new end. -/
def histCapture (snap : Snapshot) : List Snapshot × ℤ → List Snapshot × ℤ :=
  fun st =>
    let h1 := st.1.take (st.2 + 1).toNat ++ [snap]
    if h1.length > 50 then (h1.drop (h1.length - 50), 49)
    else (h1, (h1.length : ℤ) - 1)

/-- The widget store state (the slice of `WidgetState` the history claims
need). -/
structure Store where
  builderState : BuilderState
  vegaSpec : VLSpec
  dataFields : List DataField
  history : List Snapshot
  historyIndex : ℤ
  clock : ℕ
deriving DecidableEq

/-- `captureSnapshot(description)`: snapshot the current state and push it
through `histCapture`. -/
def captureSnapshot (description : Option String) (s : Store) : Store :=
  let snap : Snapshot :=
    { builderState := s.builderState, spec := s.vegaSpec,
      timestamp := s.clock, description := description }
  let hi := histCapture snap (s.history, s.historyIndex)
  { s with history := hi.1, historyIndex := hi.2, clock := s.clock + 1 }

/-- `undo()`: no-op unless `historyIndex > 0`; else decrement the cursor
and restore (deep-copy) the snapshot at the new cursor. -/
def undo (s : Store) : Store :=
  if s.historyIndex > 0 then
    match s.history.get? (s.historyIndex - 1).toNat with
    | some sn =>
        { s with historyIndex := s.historyIndex - 1,
                 builderState := sn.builderState, vegaSpec := sn.spec }
    | none => { s with historyIndex := s.historyIndex - 1 }
  else s

/-- `redo()`: no-op unless `historyIndex < history.length - 1`; else
increment the cursor and restore the snapshot there. -/
def redo (s : Store) : Store :=
  if s.historyIndex < (s.history.length : ℤ) - 1 then
    match s.history.get? (s.historyIndex + 1).toNat with
    | some sn =>
        { s with historyIndex := s.historyIndex + 1,
                 builderState := sn.builderState, vegaSpec := sn.spec }
    | none => { s with historyIndex := s.historyIndex + 1 }
  else s

/-- `setBuilderState(updates)` with updates covering the changed keys:
replace the Configuration Model and recompile the spec. -/
def setBuilderState (b : BuilderState) (s : Store) : Store :=
  { s with builderState := b, vegaSpec := buildSpec b s.dataFields }

/-- Actions over the store that touch the history: capture, undo, redo and
the (history-preserving) model mutation. -/
inductive HistAction
  | capture (description : Option String)
  | undoA
  | redoA
  | mutate (b : BuilderState)

/-- Run a sequence of history actions. -/
def runStore (s : Store) : List HistAction → Store
  | [] => s
  | HistAction.capture d :: rest => runStore (captureSnapshot d s) rest
  | HistAction.undoA :: rest => runStore (undo s) rest
  | HistAction.redoA :: rest => runStore (redo s) rest
  | HistAction.mutate b :: rest => runStore (setBuilderState b s) rest

/-! ### String helpers shared by field inference and the planner -/

/-- The JS `\s` / `String.prototype.trim` whitespace class (the code points
relevant to this code base; exotic unicode spaces behave identically for
every claim below because no embedded constant contains them). -/
def jsWs (c : Char) : Bool :=
  c = ' ' ∨ c = '\t' ∨ c = '\n' ∨ c = '\r' ∨ c = '\x0b' ∨ c = '\x0c' ∨
  c = ' ' ∨ c = ' ' ∨ c = ' ' ∨ c = '﻿'

/-- JS `String.prototype.trim` on a character list. -/
def jsTrimL (l : List Char) : List Char :=
  ((l.dropWhile jsWs).reverse.dropWhile jsWs).reverse

/-- JS `String.prototype.trim`. -/
def jsTrim (s : String) : String := String.mk (jsTrimL s.toList)

/-- JS `String.prototype.toLowerCase` (ASCII case mapping; the embedded
pattern constants are all ASCII). -/
def jsToLowerStr (s : String) : String := String.mk (s.toList.map Char.toLower)

/-- Substring containment on character lists (JS `String.prototype.includes`). -/
def listContainsSub (hay pat : List Char) : Bool :=
  match hay with
  | [] => pat.isPrefixOf []
  | _ :: rest => pat.isPrefixOf hay || listContainsSub rest pat

/-- JS `String.prototype.includes`. -/
def strIncludes (hay pat : String) : Bool := listContainsSub hay.toList pat.toList

/-- The regex word-character class `\w` = `[a-zA-Z0-9_]`. -/
def wordCharJS (c : Char) : Bool :=
  ('a' ≤ c ∧ c ≤ 'z') ∨ ('A' ≤ c ∧ c ≤ 'Z') ∨ ('0' ≤ c ∧ c ≤ '9') ∨ c = '_'

/-! ### Field inference (`src/unnamed/part_005`) -/

/-- A JS data value as seen by the inference code.  `null` and `undefined`
are merged into `jnull` (the code filters both with `v != null`); a finite
number is `num`; a non-finite number (`NaN`, `±Infinity`) carries its
`String()` rendering; a `Date` instance carries its rendering. -/
inductive JVal
  | jnull
  | num (q : ℚ)
  | nonfinite (render : String)
  | str (s : String)
  | date (render : String)
  | bool (b : Bool)
deriving DecidableEq

/-- Rendering of a finite number, standing in for JS number-to-string
conversion: any injective rendering gives the same distinct-value counts,
which is all the inference code uses strings of numbers for. -/
def ratRender (q : ℚ) : String :=
  if q.den = 1 then toString q.num else toString q.num ++ "/" ++ toString q.den

/-- JS `String(v)`. -/
def jsString : JVal → String
  | JVal.jnull => "null"
  | JVal.num q => ratRender q
  | JVal.nonfinite s => s
  | JVal.str s => s
  | JVal.date s => s
  | JVal.bool b => if b then "true" else "false"

/-- `typeof v === 'number' && Number.isFinite(v)`. -/
def isFiniteNumber : JVal → Bool
  | JVal.num _ => true
  | _ => false

/-- One position of the ISO-like date regex: four digits, a dash or slash,
two digits, a dash or slash, two digits. -/
def isoDateAt : List Char → Bool
  | a :: b :: c :: d :: s1 :: e :: f :: s2 :: g :: h :: _ =>
      a.isDigit && b.isDigit && c.isDigit && d.isDigit &&
      (s1 = '-' ∨ s1 = '/') && e.isDigit && f.isDigit &&
      (s2 = '-' ∨ s2 = '/') && g.isDigit && h.isDigit
  | _ => false

/-- Unanchored search for the ISO-like date pattern. -/
def isoScan : List Char → Bool
  | [] => false
  | l@(_ :: rest) => isoDateAt l || isoScan rest

/-- The ISO-like date regex test of the source applied to a string. -/
def isoDateTest (s : String) : Bool := isoScan s.toList

/-- The date-likeness test of `inferFieldType`: a `Date` instance, or a
value whose string rendering both parses (`dparse s` models
`Number.isFinite(Date.parse s)`) and matches the ISO-like pattern. -/
def isDateLike (dparse : String → Bool) : JVal → Bool
  | JVal.jnull => false
  | JVal.date _ => true
  | v => dparse (jsString v) && isoDateTest (jsString v)

/-- Infer the semantic type of a field from sample values
(`inferFieldType`).  The 60% and 50% double-arithmetic thresholds are the
exact rational comparisons `5*count > 3*len` and `2*count < len` (see the
header note). -/
def inferFieldType (dparse : String → Bool) (samples : List JVal) : FieldType :=
  let validSamples := samples.filter fun v => v != JVal.jnull
  if validSamples.length = 0 then FieldType.nominal
  else
    let nums := validSamples.filter isFiniteNumber
    if nums.length * 5 > validSamples.length * 3 then FieldType.quantitative
    else
      let dateLike := validSamples.filter (isDateLike dparse)
      if dateLike.length * 5 > validSamples.length * 3 then FieldType.temporal
      else
        let uniqueSize := (validSamples.map jsString).dedup.length
        if uniqueSize ≤ 20 ∧ uniqueSize * 2 < validSamples.length then FieldType.ordinal
        else FieldType.nominal

/-- Insertion-ordered tally of string values (the `Map`-based count loop of
`calculateFieldStats`). -/
def tallyCounts (l : List String) : List (String × ℕ) :=
  l.foldl (fun acc k =>
    if acc.any fun p => p.1 == k then
      acc.map fun p => if p.1 == k then (p.1, p.2 + 1) else p
    else acc ++ [(k, 1)]) []

/-- Field statistics (`calculateFieldStats`): null count, distinct count,
min/max for quantitative fields, stable-sorted top-10 value counts for
categorical fields (`Array.prototype.sort` is stable). -/
def calculateFieldStats (values : List JVal) (ty : FieldType) : FieldStats :=
  let validValues := values.filter fun v => v != JVal.jnull
  let nums : List ℚ := validValues.filterMap fun v =>
    match v with
    | JVal.num q => some q
    | _ => none
  { nulls := values.length - validValues.length
    unique := (validValues.map jsString).dedup.length
    min := if ty = FieldType.quantitative ∧ nums ≠ [] then nums.min? else none
    max := if ty = FieldType.quantitative ∧ nums ≠ [] then nums.max? else none
    topValues :=
      if ty = FieldType.nominal ∨ ty = FieldType.ordinal then
        some ((((tallyCounts (validValues.map jsString)).mergeSort
          fun a b => decide (b.2 ≤ a.2)).take 10))
      else none }

/-- A data row: a JS object, i.e. a field→value map with unique keys in
insertion order. -/
abbrev Row : Type := List (String × JVal)

/-- JS property read `r[name]` (missing key is `undefined`, merged into
`jnull`). -/
def jsGet (r : Row) (name : String) : JVal :=
  ((r.find? fun p => p.1 == name).map fun p => p.2).getD JVal.jnull

/-- Field inference over a dataset (`inferFields`): one `DataField` per key
of the first row, typed and summarised over the first 100 rows. -/
def inferFields (dparse : String → Bool) (rows : List Row) : List DataField :=
  match rows with
  | [] => []
  | first :: _ =>
      (first.map fun p => p.1).map fun name =>
        let sampleValues := (rows.take 100).map fun r => jsGet r name
        let inferredType := inferFieldType dparse sampleValues
        { name := name
          inferredType := inferredType
          stats := calculateFieldStats sampleValues inferredType }

/-- One row of the Levenshtein DP matrix, from the previous row
(`levenshteinDistance`'s inner loop; `left` is the entry just computed). -/
def levRowAux (bi : Char) : List Char → List ℕ → ℕ → List ℕ
  | [], _, _ => []
  | aj :: arest, pdiag :: prest, left =>
      let up := prest.headD 0
      let cur := if bi = aj then pdiag
        else Nat.min (Nat.min (pdiag + 1) (left + 1)) (up + 1)
      cur :: levRowAux bi arest prest cur
  | _ :: _, [], _ => []

/-- The Levenshtein DP of `src/unnamed/part_005` (matrix row by row). -/
def levenshteinDistance (sa sb : String) : ℕ :=
  let a := sa.toList
  let b := sb.toList
  let row0 := List.range (a.length + 1)
  let final := (b.foldl (fun st bi =>
    let i := st.2 + 1
    (i :: levRowAux bi a st.1 i, i)) (row0, 0)).1
  final.getLast?.getD 0

namespace FieldInference

/-- Fuzzy field resolution of the field-inference module
(`resolveField` in `src/unnamed/part_005`): exact, case-insensitive,
containment, then nearest bounded edit-distance match (stable ascending
sort, distance at most 3). -/
def resolveField (candidate : String) (fields : List DataField) :
    Option DataField :=
  let lower := jsTrim (jsToLowerStr candidate)
  match fields.find? fun f => f.name == candidate with
  | some m => some m
  | none =>
    match fields.find? fun f => jsToLowerStr f.name == lower with
    | some m => some m
    | none =>
      match fields.find? fun f => strIncludes (jsToLowerStr f.name) lower with
      | some m => some m
      | none =>
        let fuzzy := ((fields.map fun f =>
          (f, levenshteinDistance lower (jsToLowerStr f.name))).filter
            fun p => p.2 ≤ 3).mergeSort fun p q => decide (p.2 ≤ q.2)
        fuzzy.head?.map fun p => p.1

end FieldInference

/-! ### Natural-language planner (`parseNLToPlan`,
`src/utils/nlPlanner.ts` lines 3-132).

Each regex of the source is embedded as an explicit matcher with the
engine's leftmost-match, ordered-alternation and greedy semantics; `scanFor`
is the position scan of an unanchored `String.prototype.match`. -/

namespace NLPlanner

/-- Normalisation (`norm`): lowercase then trim. -/
def norm (s : String) : String := jsTrim (jsToLowerStr s)

/-- The fixed colour-name table of `colorWordToHex`. -/
def basicColors : List (String × String) :=
  [("blue", "#1f77b4"), ("orange", "#ff7f0e"), ("red", "#d62728"),
   ("green", "#2ca02c"), ("purple", "#9467bd"), ("brown", "#8c564b"),
   ("pink", "#e377c2"), ("gray", "#7f7f7f"), ("grey", "#7f7f7f"),
   ("yellow", "#bcbd22"), ("cyan", "#17becf"), ("black", "#111111"),
   ("white", "#ffffff")]

/-- The anchored test `/^#([0-9a-f]{3}|[0-9a-f]{6})$/i`. -/
def hexColorTest (s : String) : Bool :=
  match s.toList with
  | '#' :: rest =>
      (rest.length = 3 ∨ rest.length = 6) &&
      rest.all fun c => c.isDigit ∨ ('a' ≤ c ∧ c ≤ 'f') ∨ ('A' ≤ c ∧ c ≤ 'F')
  | _ => false

/-- `colorWordToHex`: pass hex literals through, translate known colour
words, pass anything else through verbatim. -/
def colorWordToHex (s : String) : String :=
  if hexColorTest s then s
  else (((basicColors.find? fun p => p.1 == norm s).map fun p => p.2).getD s)

/-- Planner field resolution (`resolveField` in `nlPlanner.ts`): exact
membership, case-insensitive find, then containment of the candidate in a
field name.  This local function has no edit-distance step. -/
def resolveField (candidate : String) (fieldNames : List String) :
    Option String :=
  if fieldNames.contains candidate then some candidate
  else
    match fieldNames.find? fun f => jsToLowerStr f == jsToLowerStr candidate with
    | some f => some f
    | none =>
        fieldNames.find? fun f =>
          listContainsSub (jsToLowerStr f).toList (jsToLowerStr candidate).toList

/-- `titleCase`: uppercase every word character at a `\b` boundary. -/
def titleCaseGo : Bool → List Char → List Char
  | _, [] => []
  | prevW, c :: rest =>
      (if ¬ prevW ∧ wordCharJS c then c.toUpper else c)
        :: titleCaseGo (wordCharJS c) rest

/-- `titleCase` on strings. -/
def titleCase (s : String) : String := String.mk (titleCaseGo false s.toList)

/-- Generic leftmost scan: try the matcher at every suffix, first success
wins (the search of an unanchored regex `match`). -/
def scanFor {α : Type} (f : List Char → Option α) : List Char → Option α
  | [] => f []
  | l@(_ :: rest) => (f l).orElse fun _ => scanFor f rest

/-- The ten mark words, in the source regex's alternation order. -/
def markWords : List (List Char × MarkType) :=
  [("line".toList, MarkType.line), ("bar".toList, MarkType.bar),
   ("area".toList, MarkType.area), ("point".toList, MarkType.point),
   ("circle".toList, MarkType.circle), ("square".toList, MarkType.square),
   ("tick".toList, MarkType.tick), ("rect".toList, MarkType.rect),
   ("rule".toList, MarkType.rule), ("text".toList, MarkType.text)]

/-- The optional change-phrase alternation of the mark regex. -/
def changePhrases : List (List Char) :=
  ["change to".toList, "switch to".toList, "make it".toList, "set to".toList]

/-- A mark word starting at this position. -/
def wordAt (l : List Char) : Option MarkType :=
  markWords.findSome? fun p => if p.1.isPrefixOf l then some p.2 else none

/-- The mark regex attempted at one position:
`(change to|switch to|make it|set to)?\s*(<mark word>)\s*(chart)?` with
ordered alternation and backtracking into the empty phrase (the trailing
optional groups never affect success or the captured word). -/
def tryMarkAt (l : List Char) : Option MarkType :=
  (changePhrases.findSome? fun p =>
      if p.isPrefixOf l then wordAt ((l.drop p.length).dropWhile jsWs)
      else none).orElse
    fun _ => wordAt (l.dropWhile jsWs)

/-- Leftmost match of the mark regex. -/
def markMatch (l : List Char) : Option MarkType := scanFor tryMarkAt l

/-- `\s+([a-zA-Z0-9_]+)` — one-or-more whitespace then a captured word. -/
def byTail (u : List Char) : Option (List Char) :=
  let w := u.takeWhile jsWs
  if w.length = 0 then none
  else
    let v := u.drop w.length
    let cap := v.takeWhile wordCharJS
    if cap = [] then none else some cap

/-- `\s*by\s+(<word>)`. -/
def colorTail (u : List Char) : Option (List Char) :=
  let v := u.dropWhile jsWs
  if ("by".toList).isPrefixOf v then byTail (v.drop 2) else none

/-- First colour regex at one position:
`color (?:lines|bars|points|by)?\s*by\s+([a-zA-Z0-9_]+)`. -/
def colorBy1At (l : List Char) : Option (List Char) :=
  if ("color ".toList).isPrefixOf l then
    let r := l.drop 6
    ((["lines".toList, "bars".toList, "points".toList, "by".toList].findSome?
        fun g => if g.isPrefixOf r then colorTail (r.drop g.length) else none).orElse
      fun _ => colorTail r)
  else none

/-- Second colour regex at one position: `color by\s+([a-zA-Z0-9_]+)`. -/
def colorBy2At (l : List Char) : Option (List Char) :=
  if ("color by".toList).isPrefixOf l then byTail (l.drop 8) else none

/-- `lower.match(re1) || lower.match(re2)` for the two colour regexes. -/
def colorByMatch (l : List Char) : Option (List Char) :=
  (scanFor colorBy1At l).orElse fun _ => scanFor colorBy2At l

/-- Index of the first occurrence of `pat`. -/
def firstOccIdx (pat : List Char) : List Char → Option ℕ
  | [] => if pat.isPrefixOf [] then some 0 else none
  | l@(_ :: rest) =>
      if pat.isPrefixOf l then some 0
      else (firstOccIdx pat rest).map fun i => i + 1

/-- `lower.split('make ')[1]`: the segment after the first `'make '`, up to
the next `'make '` (or the end). -/
def makeSegment (l : List Char) : Option (List Char) :=
  match firstOccIdx ("make ".toList) l with
  | some i =>
      let r := l.drop (i + 5)
      match firstOccIdx ("make ".toList) r with
      | some j => some (r.take j)
      | none => some r
  | none => none

/-- Leftmost match of the split separator `\s+and\s+`: the part before the
match and the part after it. -/
def findAndSep : List Char → Option (List Char × List Char)
  | [] => none
  | c :: rest =>
      let l := c :: rest
      let w1 := l.takeWhile jsWs
      let afterW1 := l.drop w1.length
      if w1.length > 0 ∧ ("and".toList).isPrefixOf afterW1 ∧
          ((afterW1.drop 3).takeWhile jsWs).length > 0 then
        let afterAnd := afterW1.drop 3
        some ([], afterAnd.drop ((afterAnd.takeWhile jsWs).length))
      else
        match findAndSep rest with
        | some (pre, post) => some (c :: pre, post)
        | none => none

/-- One split step with fuel.  Every separator match consumes at least
five characters of the input, so `l.length + 1` steps always exhaust it. -/
def splitOnAndGo : ℕ → List Char → List (List Char)
  | 0, l => [l]
  | Nat.succ fuel, l =>
      match findAndSep l with
      | some pp => pp.1 :: splitOnAndGo fuel pp.2
      | none => [l]

/-- `afterMake.split(/\s+and\s+/g)`. -/
def splitOnAnd (l : List Char) : List (List Char) :=
  splitOnAndGo (l.length + 1) l

/-- Character class `[a-z0-9_\-\s]` with the `/i` flag. -/
def pairClass1 (c : Char) : Bool :=
  ('a' ≤ c ∧ c ≤ 'z') ∨ ('A' ≤ c ∧ c ≤ 'Z') ∨ c.isDigit ∨ c = '_' ∨ c = '-' ∨ jsWs c

/-- Character class `[#a-z0-9_\-]` with the `/i` flag. -/
def pairClass2 (c : Char) : Bool :=
  c = '#' ∨ ('a' ≤ c ∧ c ≤ 'z') ∨ ('A' ≤ c ∧ c ≤ 'Z') ∨ c.isDigit ∨ c = '_' ∨ c = '-'

/-- Does the remainder match `\s+([#a-z0-9_\-]+)$`?  Returns the capture. -/
def pairTail (r : List Char) : Option (List Char) :=
  let w := r.takeWhile jsWs
  let g2 := r.drop w.length
  if w.length > 0 ∧ g2 ≠ [] ∧ g2.all pairClass2 then some g2 else none

/-- Greedy group-1 with backtracking: try the longest class-1 prefix first,
shrinking until the tail matches. -/
def pairMatchGo (p : List Char) : ℕ → Option (List Char × List Char)
  | 0 => none
  | Nat.succ k =>
      match pairTail (p.drop (k + 1)) with
      | some g2 => some (p.take (k + 1), g2)
      | none => pairMatchGo p k

/-- The anchored pair regex `/^([a-z0-9_\-\s]+)\s+([#a-z0-9_\-]+)$/i`. -/
def pairMatch (p : List Char) : Option (List Char × List Char) :=
  pairMatchGo p (p.takeWhile pairClass1).length

/-- JS object insertion `map[k] = v`: unique keys, first-insertion order,
last value wins. -/
def jsObjInsert (m : List (String × String)) (k v : String) :
    List (String × String) :=
  if m.any fun p => p.1 == k then m.map fun p => if p.1 == k then (k, v) else p
  else m ++ [(k, v)]

/-- `parseInt` on a nonempty digit string. -/
def natOfDigits (ds : List Char) : ℕ :=
  ds.foldl (fun n c => n * 10 + (c.toNat - '0'.toNat)) 0

/-- The top-N regex at one position:
`top\s+(\d+)(?:\s+by\s+([a-zA-Z0-9_]+))?`. -/
def topAt (l : List Char) : Option (ℕ × Option (List Char)) :=
  if ("top".toList).isPrefixOf l then
    let r := l.drop 3
    let w := r.takeWhile jsWs
    if w.length = 0 then none
    else
      let r2 := r.drop w.length
      let ds := r2.takeWhile Char.isDigit
      if ds = [] then none
      else
        let r3 := r2.drop ds.length
        let byCap : Option (List Char) :=
          let w2 := r3.takeWhile jsWs
          if w2.length = 0 then none
          else
            let r4 := r3.drop w2.length
            if ("by".toList).isPrefixOf r4 then byTail (r4.drop 2) else none
        some (natOfDigits ds, byCap)
  else none

/-- The order-word alternation `(ascending|descending|asc|desc)` in source
order. -/
def orderWords : List (List Char) :=
  ["ascending".toList, "descending".toList, "asc".toList, "desc".toList]

/-- The sort regex at one position:
`sort\s+by\s+([a-zA-Z0-9_]+)\s+(ascending|descending|asc|desc)`. -/
def sortAt (l : List Char) : Option (List Char × List Char) :=
  if ("sort".toList).isPrefixOf l then
    let r := l.drop 4
    let w := r.takeWhile jsWs
    if w.length = 0 then none
    else
      let r2 := r.drop w.length
      if ("by".toList).isPrefixOf r2 then
        let r3 := r2.drop 2
        let w2 := r3.takeWhile jsWs
        if w2.length = 0 then none
        else
          let r4 := r3.drop w2.length
          let cap := r4.takeWhile wordCharJS
          if cap = [] then none
          else
            let r5 := r4.drop cap.length
            let w3 := r5.takeWhile jsWs
            if w3.length = 0 then none
            else
              let r6 := r5.drop w3.length
              (orderWords.findSome? fun ow =>
                if ow.isPrefixOf r6 then some (cap, ow) else none)
      else none
  else none

/-- The alternate colour regex at one position:
`use\s+([a-zA-Z0-9_]+)\s+as\s+color`. -/
def useAsColorAt (l : List Char) : Option (List Char) :=
  if ("use".toList).isPrefixOf l then
    let r := l.drop 3
    let w := r.takeWhile jsWs
    if w.length = 0 then none
    else
      let r2 := r.drop w.length
      let cap := r2.takeWhile wordCharJS
      if cap = [] then none
      else
        let r3 := r2.drop cap.length
        let w2 := r3.takeWhile jsWs
        if w2.length = 0 then none
        else
          let r4 := r3.drop w2.length
          if ("as".toList).isPrefixOf r4 then
            let r5 := r4.drop 2
            let w3 := r5.takeWhile jsWs
            if w3.length = 0 then none
            else if ("color".toList).isPrefixOf (r5.drop w3.length) then some cap
            else none
          else none
  else none

/-- The quote class `['""]` of the title regex (apostrophe and double
quote). -/
def quoteChars : List Char := [Char.ofNat 39, '"']

/-- The title regex at one position:
`set title to\s+['""]?([^'""\n]+)['""]?` (greedy capture of non-quote,
non-newline characters; the optional opening quote backtracks to empty when
the capture would otherwise be empty). -/
def titleAt (l : List Char) : Option (List Char) :=
  if ("set title to".toList).isPrefixOf l then
    let r := l.drop 12
    let w := r.takeWhile jsWs
    if w.length = 0 then none
    else
      let r2 := r.drop w.length
      let notQ : Char → Bool := fun c => !(quoteChars.contains c || c = '\n')
      match r2 with
      | [] => none
      | c :: rest =>
          if quoteChars.contains c then
            let cap := rest.takeWhile notQ
            if cap ≠ [] then some cap
            else
              let cap0 := r2.takeWhile notQ
              if cap0 ≠ [] then some cap0 else none
          else
            let cap0 := r2.takeWhile notQ
            if cap0 ≠ [] then some cap0 else none
  else none

/-- The scheme regex at one position:
`use\s+([a-z0-9]+)\s+(?:color\s+)?scheme` (greedy optional group first). -/
def schemeAt (l : List Char) : Option (List Char) :=
  if ("use".toList).isPrefixOf l then
    let r := l.drop 3
    let w := r.takeWhile jsWs
    if w.length = 0 then none
    else
      let r2 := r.drop w.length
      let cap := r2.takeWhile fun c => ('a' ≤ c ∧ c ≤ 'z') ∨ c.isDigit
      if cap = [] then none
      else
        let r3 := r2.drop cap.length
        let w2 := r3.takeWhile jsWs
        if w2.length = 0 then none
        else
          let r4 := r3.drop w2.length
          let withColor : Bool :=
            if ("color".toList).isPrefixOf r4 then
              let r5 := r4.drop 5
              let w3 := r5.takeWhile jsWs
              decide (w3.length > 0) &&
                ("scheme".toList).isPrefixOf (r5.drop w3.length)
            else false
          if withColor then some cap
          else if ("scheme".toList).isPrefixOf r4 then some cap
          else none
  else none

/-- The word-boundary test `/\blines\b/` with an explicit previous
character. -/
def hasWordLinesGo : Option Char → List Char → Bool
  | _, [] => false
  | prev, c :: rest =>
      (("lines".toList).isPrefixOf (c :: rest) &&
        (match prev with
         | some p => !(wordCharJS p)
         | none => true) &&
        (match (c :: rest).drop 5 with
         | [] => true
         | a :: _ => !(wordCharJS a))) ||
      hasWordLinesGo (some c) rest

/-- `/\blines\b/.test lower`. -/
def hasWordLines (l : List Char) : Bool := hasWordLinesGo none l

/-- Is an operation a `set_mark`? -/
def isSetMarkOp : Operation → Bool
  | Operation.set_mark _ _ => true
  | _ => false

/-- The pattern-based planner (`parseNLToPlan`): the fixed ordered battery
of matchers, each contributing at most one operation, plus the plural
"lines" nudge and the confidence heuristic
`min(1, 0.6 + 0.08 * |ops|)`. -/
def parseNLToPlan (input : String) (fieldNames : List String)
    (_builder : BuilderState) : ChartEditPlan :=
  let text := jsTrim input
  let l := (norm text).toList
  let markOps : List Operation :=
    match markMatch l with
    | some m =>
        [Operation.set_mark m (some
          { point := some (listContainsSub l ("with points".toList)),
            stacked := none })]
    | none => []
  let colorOps : List Operation :=
    match colorByMatch l with
    | some cap =>
        match resolveField (String.mk cap) fieldNames with
        | some fld => [Operation.set_encoding Channel.color fld none none]
        | none => []
    | none => []
  let makeOps : List Operation :=
    match makeSegment l with
    | some seg =>
        if seg ≠ [] then
          let pairs := (splitOnAnd seg).map jsTrimL
          let colorMap := pairs.foldl (fun m p =>
            match pairMatch p with
            | some gg =>
                jsObjInsert m (titleCase (String.mk (jsTrimL gg.1)))
                  (colorWordToHex (String.mk (jsTrimL gg.2)))
            | none => m) []
          if colorMap ≠ [] then [Operation.set_series_colors colorMap] else []
        else []
    | none => []
  let topOps : List Operation :=
    match scanFor topAt l with
    | some nb =>
        [Operation.set_top_n nb.1
          (match nb.2 with
           | some c => resolveField (String.mk c) fieldNames
           | none => none)
          (some SortOrder.descending)]
    | none => []
  let sortOps : List Operation :=
    match scanFor sortAt l with
    | some co =>
        let byv := (resolveField (String.mk co.1) fieldNames).getD (String.mk co.1)
        let ord := if listContainsSub co.2 ("desc".toList) then SortOrder.descending
          else SortOrder.ascending
        [Operation.set_sort "y" (some byv) ord]
    | none => []
  let altColorOps : List Operation :=
    match scanFor useAsColorAt l with
    | some cap =>
        match resolveField (String.mk cap) fieldNames with
        | some fld => [Operation.set_encoding Channel.color fld none none]
        | none => []
    | none => []
  let titleOps : List Operation :=
    match scanFor titleAt l with
    | some cap => [Operation.set_title (jsTrim (String.mk cap))]
    | none => []
  let schemeOps : List Operation :=
    match scanFor schemeAt l with
    | some cap => [Operation.set_color_scheme (String.mk cap)]
    | none => []
  let ops0 := markOps ++ colorOps ++ makeOps ++ topOps ++ sortOps ++
    altColorOps ++ titleOps ++ schemeOps
  let ops :=
    if (ops0.all fun o => !(isSetMarkOp o)) && hasWordLines l then
      ops0 ++ [Operation.set_mark MarkType.line none]
    else ops0
  { intentText := input
    confidence := min 1 ((3 : ℚ) / 5 + ops.length * (2 / 25))
    operations := ops }

end NLPlanner

/-! ### Claim-side definitions and concrete inputs used by the theorems -/

/-- Is a transform a topN transform? -/
def isTopN : ChartTransform → Bool
  | ChartTransform.topN _ _ _ => true
  | _ => false

/-- The field-inference contract as worded by the specification: classify
from the non-null samples by the 60%/60%/20-and-50% cascade.  Modelled from
the spec's words for comparison against `inferFieldType`. -/
def claimClassify (dparse : String → Bool) (samples : List JVal) : FieldType :=
  let valid := samples.filter fun v => v != JVal.jnull
  if valid.countP isFiniteNumber * 5 > valid.length * 3 then FieldType.quantitative
  else if valid.countP (isDateLike dparse) * 5 > valid.length * 3 then FieldType.temporal
  else if (valid.map jsString).dedup.length ≤ 20 ∧
      (valid.map jsString).dedup.length * 2 < valid.length then FieldType.ordinal
  else FieldType.nominal

/-- The planner's field resolution as worded by the amended claim: exact
match, then case-insensitive match, then containment of the candidate in a
field name; first success wins, with no further step.  Modelled from the
amended spec words for comparison against `NLPlanner.resolveField`. -/
def claimResolveCascade (candidate : String) (fieldNames : List String) :
    Option String :=
  ((if fieldNames.contains candidate then some candidate else none).orElse fun _ =>
    (fieldNames.find? fun f => jsToLowerStr f == jsToLowerStr candidate)).orElse fun _ =>
      fieldNames.find? fun f => strIncludes (jsToLowerStr f) (jsToLowerStr candidate)

/-- The first mark word occurring as a plain substring of the text, in
alternation order at equal positions (the claim's "first such substring
occurrence").  Modelled from the claim's words for comparison with the
planner's regex matcher. -/
def firstMarkWord : List Char → Option MarkType
  | [] => none
  | l@(_ :: rest) => (NLPlanner.wordAt l).orElse fun _ => firstMarkWord rest

/-- The last `n` elements of a list (`Array.prototype.slice(-n)` for
nonempty `n`). -/
def lastN {α : Type} (n : ℕ) (l : List α) : List α := l.drop (l.length - n)

/-- A spec with a `facet` key (for the classifier scenario). -/
def facetExampleSpec : VLSpec :=
  { schema := vlSchemaUrl, width := none, height := none,
    data := some VLData.values, mark := some (buildMark getDefaultBuilderState.mark),
    encoding := none, transform := none, config := none, title := none,
    description := none, background := none, padding := none,
    facet := some (), layer := none, hconcat := none, vconcat := none,
    repeatSpec := none }

/-- A simple mark-plus-encoding spec with inline data (for the classifier
scenario). -/
def simpleExampleSpec : VLSpec :=
  { schema := vlSchemaUrl, width := some 400, height := some 300,
    data := some VLData.values,
    mark := some (buildMark getDefaultBuilderState.mark),
    encoding := some
      { x := some { field := some "a", type := some FieldType.nominal,
                    aggregate := none, bin := none, timeUnit := none, sort := none,
                    scale := none, axis := none, legend := none, stack := none }
        y := some { field := some "b", type := some FieldType.quantitative,
                    aggregate := none, bin := none, timeUnit := none, sort := none,
                    scale := none, axis := none, legend := none, stack := none }
        color := none, size := none, tooltip := none }
    transform := some [VLTransform.filter "datum.b > 0"], config := none,
    title := none, description := none, background := none, padding := none,
    facet := none, layer := none, hconcat := none, vconcat := none,
    repeatSpec := none }

/-- A store in its initial state (empty history, cursor -1). -/
def initialStore : Store :=
  { builderState := getDefaultBuilderState
    vegaSpec := buildSpec getDefaultBuilderState []
    dataFields := []
    history := []
    historyIndex := -1
    clock := 0 }

/-- A concrete mutated Configuration Model (title set). -/
def mutatedBuilder : BuilderState :=
  { getDefaultBuilderState with title := some "T" }

/-- A minimal spec literal used for witness snapshots. -/
def trivialVLSpec : VLSpec :=
  { schema := vlSchemaUrl, width := none, height := none, data := none,
    mark := none, encoding := none, transform := none, config := none,
    title := none, description := none, background := none, padding := none,
    facet := none, layer := none, hconcat := none, vconcat := none,
    repeatSpec := none }

/-- Fifty-one distinct snapshots for the history-eviction witness. -/
def witnessSnaps : List Snapshot :=
  (List.range 51).map fun k =>
    { builderState := getDefaultBuilderState, spec := trivialVLSpec,
      timestamp := k, description := none }

/-- A trivially false date-parse oracle for concrete witnesses (no string
in them parses as a date). -/
def witnessDparse : String → Bool := fun _ => false

/-- Concrete rows for the inference witness. -/
def witnessRows : List Row :=
  [[("a", JVal.num 1), ("b", JVal.str "x")], [("a", JVal.num 2), ("b", JVal.str "x")]]

/-- A bar model with stacking set, a quantitative y and a nominal x (for
the stacking witness). -/
def stackedBarModel : BuilderState :=
  { getDefaultBuilderState with
    mark := { getDefaultBuilderState.mark with stacked := some StackMode.zero }
    encodings := { emptyEncodings with
      x := some { emptyEncodingConfig with
        field := some "Category", type := some FieldType.nominal }
      y := some { emptyEncodingConfig with
        field := some "Sales", type := some FieldType.quantitative } } }

/-- A model with a pre-existing topN transform and no axis fields (for the
topN-removal witness). -/
def axislessModel : BuilderState :=
  { getDefaultBuilderState with
    transforms := [ChartTransform.topN 5 "Sales" SortOrder.descending,
                   ChartTransform.filter "datum.Sales > 0"] }

/-- A single-operation plan carrying `set_top_n` with no `byField` (for the
topN-removal witness). -/
def topNOnlyPlan : ChartEditPlan :=
  { intentText := "top 3", confidence := 0,
    operations := [Operation.set_top_n 3 none none] }


/-- Field metadata for the round-trip witness. -/
def c1WitnessFields : List DataField :=
  [ { name := "Region", inferredType := FieldType.nominal,
      stats := { nulls := 0, unique := 4, min := none, max := none, topValues := none } },
    { name := "Sales", inferredType := FieldType.quantitative,
      stats := { nulls := 0, unique := 40, min := some 0, max := some 100, topValues := none } } ]

/-- A concrete representable Configuration Model (stacked bar with an
aggregate y, a filter transform, auto tooltip and a title) for the
round-trip witness. -/
def c1WitnessModel : BuilderState :=
  { mark := { type := MarkType.bar, point := none, stacked := some StackMode.zero,
              opacity := none, size := none, strokeWidth := none, interpolate := none }
    encodings := (Encodings.mk
      (some { emptyEncodingConfig with
        field := some "Region", type := some FieldType.nominal })
      (some { emptyEncodingConfig with
        field := some "Sales", type := some FieldType.quantitative,
        aggregate := some AggOp.sum })
      none
      none
      (some TooltipSetting.auto))
    transforms := [ChartTransform.filter "datum.Sales > 0"]
    width := Dimension.container
    height := Dimension.px 360
    title := some "Sales by Region"
    description := none
    background := none
    padding := none }

/-! ## Theorems -/

/-- Helper: the transform-count disjunct of the classifier, as a
proposition. -/
theorem trMatch_iff (tr : Option (List VLTransform)) :
    ((match tr with
      | some ts => decide (ts.length > 3)
      | none => false) = true) ↔ ∃ ts, tr = some ts ∧ 3 < ts.length := by
  cases tr <;> simp

/-- Helper: the remote-data disjunct of the classifier, as a proposition. -/
theorem dataMatch_iff (d : Option VLData) :
    ((match d with
      | some (VLData.url _) => true
      | _ => false) = true) ↔ ∃ u, d = some (VLData.url u) := by
  cases d with
  | none => simp
  | some v => cases v <;> simp

/-- C8: the custom-spec classifier returns true iff the spec contains a
composition operator (facet, layer, hconcat, vconcat, repeat), or its
transform list has more than three entries, or its data source is a remote
url reference; in particular it is true for a spec with a facet key and
false for a simple mark-plus-encoding spec with inline data. -/
theorem c8_isCustomSpec_characterisation :
    (∀ sp : VLSpec, isCustomSpec sp = true ↔
      (sp.facet.isSome = true ∨ sp.layer.isSome = true ∨ sp.hconcat.isSome = true ∨
       sp.vconcat.isSome = true ∨ sp.repeatSpec.isSome = true ∨
       (∃ ts, sp.transform = some ts ∧ 3 < ts.length) ∨
       (∃ u, sp.data = some (VLData.url u)))) ∧
    isCustomSpec facetExampleSpec = true ∧ isCustomSpec simpleExampleSpec = false := by
  refine ⟨fun sp => ?_, by decide, by decide⟩
  simp only [isCustomSpec, Bool.or_eq_true, trMatch_iff, dataMatch_iff]
  aesop

/-- C6: the command `"top 10 by Sales"` against fields
`["Category","Sales","Region"]` and any Configuration Model yields exactly
one `set_top_n` operation with `n = 10`, `byField = "Sales"` and descending
order, at confidence `0.6 + 0.08 = 0.68`. -/
theorem c6_top10_by_sales_scenario (b : BuilderState) :
    NLPlanner.parseNLToPlan "top 10 by Sales" ["Category", "Sales", "Region"] b =
      { intentText := "top 10 by Sales", confidence := 17 / 25,
        operations := [Operation.set_top_n 10 (some "Sales") (some SortOrder.descending)] } := by
  have hb : NLPlanner.parseNLToPlan "top 10 by Sales" ["Category", "Sales", "Region"] b =
      NLPlanner.parseNLToPlan "top 10 by Sales" ["Category", "Sales", "Region"]
        getDefaultBuilderState := by
    unfold NLPlanner.parseNLToPlan
    rfl
  rw [hb]
  have heta : NLPlanner.parseNLToPlan "top 10 by Sales" ["Category", "Sales", "Region"]
      getDefaultBuilderState =
      ChartEditPlan.mk
        (NLPlanner.parseNLToPlan "top 10 by Sales" ["Category", "Sales", "Region"]
          getDefaultBuilderState).intentText
        (NLPlanner.parseNLToPlan "top 10 by Sales" ["Category", "Sales", "Region"]
          getDefaultBuilderState).confidence
        (NLPlanner.parseNLToPlan "top 10 by Sales" ["Category", "Sales", "Region"]
          getDefaultBuilderState).operations := rfl
  rw [heta]
  have h1 : (NLPlanner.parseNLToPlan "top 10 by Sales" ["Category", "Sales", "Region"]
      getDefaultBuilderState).intentText = "top 10 by Sales" := rfl
  have h2 : (NLPlanner.parseNLToPlan "top 10 by Sales" ["Category", "Sales", "Region"]
      getDefaultBuilderState).confidence = 17 / 25 := by
    show min 1 ((3 : ℚ) / 5 + ((1 : ℕ) : ℚ) * (2 / 25)) = 17 / 25
    norm_num [min_def]
  have h3 : (NLPlanner.parseNLToPlan "top 10 by Sales" ["Category", "Sales", "Region"]
      getDefaultBuilderState).operations =
      [Operation.set_top_n 10 (some "Sales") (some SortOrder.descending)] := by decide
  rw [h1, h2, h3]

/-- C4 counterexample: the candidate `"salse"` is at edit distance 2 from
the sole field name `"Sales"` and matches no earlier rule, yet the
planner's resolution returns nothing — the claimed edit-distance step does
not exist in the planner. -/
theorem c4_planner_resolution_counterexample :
    NLPlanner.resolveField "salse" ["Sales"] = none ∧
    levenshteinDistance "salse" "sales" = 2 := by
  constructor <;> rfl

/-- C4 (amended): the planner's field resolution tries, in order, exact
match, case-insensitive match and substring containment, and the first
success wins; there is no edit-distance step (that step exists only in the
field-inference module's resolver, which the planner does not use). -/
theorem c4_planner_resolution_amended (candidate : String) (fieldNames : List String) :
    NLPlanner.resolveField candidate fieldNames = claimResolveCascade candidate fieldNames ∧
    (fieldNames.contains candidate = true →
      NLPlanner.resolveField candidate fieldNames = some candidate) := by
  constructor
  · unfold NLPlanner.resolveField claimResolveCascade strIncludes
    by_cases hm : candidate ∈ fieldNames
    · simp [hm, Option.orElse]
    · simp only [hm, if_neg, not_false_iff, List.elem_eq_mem, decide_eq_true_eq]
      cases hci : fieldNames.find? fun f => jsToLowerStr f == jsToLowerStr candidate <;>
        simp [Option.orElse]
  · intro h
    unfold NLPlanner.resolveField
    simp_all

/-- C4 witness: concrete instances of the amended resolution (the cascade
agreement, and exact-match precedence discharged at `"Sales"`). -/
theorem c4_planner_resolution_amended_witness :
    NLPlanner.resolveField "sales" ["Category", "Sales"] =
      claimResolveCascade "sales" ["Category", "Sales"] ∧
    NLPlanner.resolveField "Sales" ["Category", "Sales"] = some "Sales" :=
  ⟨(c4_planner_resolution_amended "sales" ["Category", "Sales"]).1,
   (c4_planner_resolution_amended "Sales" ["Category", "Sales"]).2 (by decide)⟩

/-- Helper: the code's classifier equals the claim-side cascade. -/
theorem inferFieldType_eq_claimClassify (dparse : String → Bool) (samples : List JVal) :
    inferFieldType dparse samples = claimClassify dparse samples := by
  unfold inferFieldType claimClassify
  by_cases h0 : (samples.filter fun v => v != JVal.jnull).length = 0
  · have he : samples.filter (fun v => v != JVal.jnull) = [] := List.length_eq_zero.mp h0
    simp [he]
  · simp only [h0, if_neg, not_false_iff, List.countP_eq_length_filter]

/-- C5 counterexample: field `"b"` is observed in the second row (within
the first 100 rows) but `inferFields` reports only the first row's keys —
the claim's "per field name observed across the first 100 rows" fails. -/
theorem c5_infer_counterexample :
    ((inferFields witnessDparse [[("a", JVal.num 1)], [("b", JVal.num 2)]]).map
        fun f => f.name) = ["a"] ∧
    ¬ ∃ f ∈ inferFields witnessDparse [[("a", JVal.num 1)], [("b", JVal.num 2)]],
        f.name = "b" := by
  constructor
  · rfl
  · decide

/-- C5 (amended): for every non-empty row list, `inferFields` returns one
`DataField` per key of the first row, each classified over the first 100
rows' values by the claimed cascade: quantitative when more than 60% of
non-null samples are finite numbers, else temporal when more than 60% are
date-like, else ordinal when the distinct stringified values number at
most 20 and less than 50% of the non-null sample count, else nominal. -/
theorem c5_infer_amended (dparse : String → Bool) (rows : List Row) (hne : rows ≠ []) :
    ((inferFields dparse rows).map fun f => f.name) = ((rows.headD []).map fun p => p.1) ∧
    ∀ dfl ∈ inferFields dparse rows,
      dfl.inferredType =
        claimClassify dparse ((rows.take 100).map fun r => jsGet r dfl.name) := by
  constructor
  · cases rows with
    | nil => simp at hne
    | cons first rest =>
        simp [inferFields, List.map_map, Function.comp]
  · intro dfl hmem
    cases rows with
    | nil => simp [inferFields] at hmem
    | cons first rest =>
        simp only [inferFields, List.mem_map] at hmem
        obtain ⟨name, hname, hdfl⟩ := hmem
        subst hdfl
        simpa using inferFieldType_eq_claimClassify dparse _

/-- C5 witness: the amended inference contract discharged at a concrete
two-row dataset. -/
theorem c5_infer_amended_witness :
    ((inferFields witnessDparse witnessRows).map fun f => f.name) =
      ((witnessRows.headD []).map fun p => p.1) ∧
    ∀ dfl ∈ inferFields witnessDparse witnessRows,
      dfl.inferredType =
        claimClassify witnessDparse ((witnessRows.take 100).map fun r => jsGet r dfl.name) :=
  c5_infer_amended witnessDparse witnessRows (by decide)

/-- C2 (code bug): starting from the initial store, `captureSnapshot()`
followed by a mutation and `undo()` leaves the mutated model in place —
`undo` is a no-op at cursor 0, so the captured pre-mutation state S is
never restored (and with a longer history `undo` restores the snapshot
before S instead).  The claimed capture–mutate–undo symmetry fails on the
code. -/
theorem c2_undo_after_capture_mutate_divergence :
    (undo (setBuilderState mutatedBuilder
        (captureSnapshot (some "edit") initialStore))).builderState = mutatedBuilder ∧
    mutatedBuilder ≠ initialStore.builderState ∧
    (undo (setBuilderState mutatedBuilder
        (captureSnapshot (some "edit") initialStore))).historyIndex = 0 := by
  refine ⟨rfl, by decide, rfl⟩

/-- Helper: the last-n slice keeps everything when the list is short. -/
theorem lastN_of_le {α : Type} {n : ℕ} {l : List α} (h : l.length ≤ n) : lastN n l = l := by
  unfold lastN
  rw [Nat.sub_eq_zero_of_le h, List.drop_zero]

/-- Helper: length of the last-n slice. -/
theorem length_lastN {α : Type} (n : ℕ) (l : List α) :
    (lastN n l).length = min n l.length := by
  unfold lastN
  rw [List.length_drop]
  omega

/-- Helper: the last-n slice of an append is taken from the right part when
that part is long enough. -/
theorem lastN_append_right {α : Type} {n : ℕ} {x y : List α} (h : n ≤ y.length) :
    lastN n (x ++ y) = lastN n y := by
  unfold lastN
  rw [List.length_append]
  have he : x.length + y.length - n = x.length + (y.length - n) := by omega
  rw [he, List.drop_append]

/-- Helper: nested last-n slices collapse. -/
theorem lastN_lastN {α : Type} {m n : ℕ} {x : List α} (h : m ≤ n) :
    lastN m (lastN n x) = lastN m x := by
  unfold lastN
  rw [List.drop_drop, List.length_drop]
  congr 1
  omega

/-- Helper: trimming before appending does not change the last-n slice. -/
theorem lastN_append_lastN {α : Type} {n : ℕ} {x y : List α} :
    lastN n (lastN n x ++ y) = lastN n (x ++ y) := by
  by_cases h : n ≤ y.length
  · rw [lastN_append_right h, lastN_append_right h]
  · push_neg at h
    have hxy : ∀ z : List α, lastN n (z ++ y) = lastN (n - y.length) z ++ y := by
      intro z
      unfold lastN
      rw [List.length_append, List.drop_append_eq_append_drop]
      have h1 : z.length + y.length - n ≤ z.length := by omega
      have h2 : z.length + y.length - n - z.length = 0 := by omega
      rw [h2, List.drop_zero]
      congr 2
      omega
    rw [hxy, hxy, lastN_lastN (by omega)]

/-- Helper: one capture step in closed form — truncate at the cursor,
append, keep the last 50, cursor at the end. -/
theorem histCapture_eq (sn : Snapshot) (h : List Snapshot) (i : ℤ) :
    histCapture sn (h, i) =
      (lastN 50 (h.take (i + 1).toNat ++ [sn]),
       ((lastN 50 (h.take (i + 1).toNat ++ [sn])).length : ℤ) - 1) := by
  unfold histCapture
  set h1 := h.take (i + 1).toNat ++ [sn] with hh1
  by_cases hl : h1.length > 50
  · rw [if_pos hl]
    have hly : lastN 50 h1 = h1.drop (h1.length - 50) := rfl
    rw [← hly]
    have hlen : (lastN 50 h1).length = 50 := by rw [length_lastN]; omega
    rw [hlen]
    norm_num
  · rw [if_neg hl]
    push_neg at hl
    rw [lastN_of_le hl]

/-- Helper: a run of consecutive captures in closed form. -/
theorem histCapture_foldl (snaps : List Snapshot) :
    ∀ (h : List Snapshot) (i : ℤ), snaps ≠ [] →
    snaps.foldl (fun st sn => histCapture sn st) (h, i) =
      (lastN 50 (h.take (i + 1).toNat ++ snaps),
       ((lastN 50 (h.take (i + 1).toNat ++ snaps)).length : ℤ) - 1) := by
  induction snaps with
  | nil => intro h i hne; simp at hne
  | cons s rest ih =>
      intro h i _
      cases hre : rest with
      | nil =>
          simp only [List.foldl_cons, List.foldl_nil]
          exact histCapture_eq s h i
      | cons s2 rest2 =>
          rw [← hre]
          simp only [List.foldl_cons]
          rw [histCapture_eq s h i]
          rw [ih _ _ (by rw [hre]; simp)]
          have htake : (lastN 50 (h.take (i + 1).toNat ++ [s])).take
              (((lastN 50 (h.take (i + 1).toNat ++ [s])).length : ℤ) - 1 + 1).toNat =
              lastN 50 (h.take (i + 1).toNat ++ [s]) := by
            have heq : (((lastN 50 (h.take (i + 1).toNat ++ [s])).length : ℤ) - 1 + 1).toNat =
                (lastN 50 (h.take (i + 1).toNat ++ [s])).length := by omega
            rw [heq, List.take_length]
          rw [htake, lastN_append_lastN, List.append_assoc]
          rfl

/-- Helper: undo never changes the stack. -/
theorem undo_history (s : Store) : (undo s).history = s.history := by
  unfold undo
  split
  · split <;> rfl
  · rfl

/-- Helper: redo never changes the stack. -/
theorem redo_history (s : Store) : (redo s).history = s.history := by
  unfold redo
  split
  · split <;> rfl
  · rfl

/-- C3: over every sequence of capture/undo/redo (and mutation) actions the
history stack never exceeds 50 entries, and a run of more than 50
consecutive captures retains exactly the 50 most recent snapshots in
order, evicting oldest-first with the cursor set to the new end (49). -/
theorem c3_history_bound_and_retention :
    (∀ (ops : List HistAction) (s : Store), s.history.length ≤ 50 →
      (runStore s ops).history.length ≤ 50) ∧
    (∀ (h : List Snapshot) (i : ℤ) (snaps : List Snapshot), 50 < snaps.length →
      snaps.foldl (fun st sn => histCapture sn st) (h, i) =
        (snaps.drop (snaps.length - 50), 49)) := by
  constructor
  · have hcap : ∀ sn st, ((histCapture sn st).1 : List Snapshot).length ≤ 50 := by
      intro sn st
      unfold histCapture
      by_cases hl : (st.1.take (st.2 + 1).toNat ++ [sn]).length > 50
      · rw [if_pos hl]
        simp only [List.length_drop]
        omega
      · rw [if_neg hl]
        push_neg at hl
        simpa using hl
    intro ops
    induction ops with
    | nil => intro s hs; exact hs
    | cons a rest ih =>
        intro s hs
        cases a with
        | capture d =>
            simp only [runStore]
            apply ih
            exact hcap _ _
        | undoA =>
            simp only [runStore]
            apply ih
            rw [undo_history]
            exact hs
        | redoA =>
            simp only [runStore]
            apply ih
            rw [redo_history]
            exact hs
        | mutate b =>
            simp only [runStore]
            apply ih
            exact hs
  · intro h i snaps hlen
    rw [histCapture_foldl snaps h i (by intro he; rw [he] at hlen; simp at hlen)]
    have h50 : 50 ≤ snaps.length := by omega
    rw [lastN_append_right h50]
    have hdef : lastN 50 snaps = snaps.drop (snaps.length - 50) := rfl
    rw [hdef]
    have hl2 : (snaps.drop (snaps.length - 50)).length = 50 := by
      rw [List.length_drop]; omega
    rw [hl2]
    rfl

/-- C3 witness: the bound discharged on a concrete action sequence from the
initial store, and eviction discharged on 51 concrete snapshots. -/
theorem c3_history_bound_and_retention_witness :
    (runStore initialStore
      [HistAction.capture none, HistAction.capture (some "b"), HistAction.undoA]).history.length
        ≤ 50 ∧
    witnessSnaps.foldl (fun st sn => histCapture sn st) ([], -1) =
      (witnessSnaps.drop (witnessSnaps.length - 50), 49) :=
  ⟨c3_history_bound_and_retention.1
      [HistAction.capture none, HistAction.capture (some "b"), HistAction.undoA]
      initialStore (by decide),
   c3_history_bound_and_retention.2 [] (-1) witnessSnaps (by decide)⟩

/-- C7: when `stackMode` is set and the mark is bar or area, the compiler
attaches the stack directive to the y channel when its compiled type is
quantitative, else to the x channel when that is quantitative, preferring y
when both are; when neither axis is quantitative (and on the color and size
channels always) no stack directive appears in the output. -/
theorem c7_stacking_attachment (M : BuilderState) (fields : List DataField) (sm : StackMode)
    (hst : M.mark.stacked = some sm)
    (hmk : M.mark.type = MarkType.bar ∨ M.mark.type = MarkType.area) :
    ∃ enc : VLEncoding, (buildSpec M fields).encoding = some enc ∧
      (enc.color.bind fun c => c.stack) = none ∧
      (enc.size.bind fun c => c.stack) = none ∧
      ((enc.y.bind fun c => c.type) = some FieldType.quantitative →
        (enc.y.bind fun c => c.stack) = some sm ∧ (enc.x.bind fun c => c.stack) = none) ∧
      ((enc.y.bind fun c => c.type) ≠ some FieldType.quantitative →
        (enc.x.bind fun c => c.type) = some FieldType.quantitative →
        (enc.x.bind fun c => c.stack) = some sm ∧ (enc.y.bind fun c => c.stack) = none) ∧
      ((enc.y.bind fun c => c.type) ≠ some FieldType.quantitative →
        (enc.x.bind fun c => c.type) ≠ some FieldType.quantitative →
        (enc.x.bind fun c => c.stack) = none ∧ (enc.y.bind fun c => c.stack) = none) := by
  refine ⟨applyStacking M.mark (baseEncoding M fields), rfl, ?_⟩
  have hchan : ∀ oc : Option EncodingConfig,
      ((compileChannel oc).bind fun c => c.stack) = none := by
    intro oc
    cases oc with
    | none => simp [compileChannel]
    | some c =>
        by_cases hf : strTruthy c.field = true <;>
          simp [compileChannel, hf, buildEncodingChannel]
  have hcs : ((baseEncoding M fields).color.bind fun c => c.stack) = none := hchan _
  have hss : ((baseEncoding M fields).size.bind fun c => c.stack) = none := hchan _
  have hxs : ((baseEncoding M fields).x.bind fun c => c.stack) = none := hchan _
  have hys : ((baseEncoding M fields).y.bind fun c => c.stack) = none := hchan _
  simp only [applyStacking, hst]
  rw [if_pos hmk]
  generalize hgen : baseEncoding M fields = B at hcs hss hxs hys ⊢
  clear hgen hchan
  rcases hy2 : B.y with _ | cy <;> rcases hx2 : B.x with _ | cx <;>
    rw [hy2] at hys <;> rw [hx2] at hxs <;>
    simp only [hy2, hx2, Option.map_none, Option.map_some, Option.join]
  · simp_all
  · by_cases hq : cx.type = some FieldType.quantitative <;> simp_all
  · by_cases hq : cy.type = some FieldType.quantitative <;> simp_all
  · by_cases hq : cy.type = some FieldType.quantitative <;>
      by_cases hq2 : cx.type = some FieldType.quantitative <;> simp_all

/-- C7 witness: the stacking contract discharged on a concrete stacked bar
model with a quantitative y channel. -/
theorem c7_stacking_attachment_witness :
    ∃ enc : VLEncoding, (buildSpec stackedBarModel []).encoding = some enc ∧
      (enc.color.bind fun c => c.stack) = none ∧
      (enc.size.bind fun c => c.stack) = none ∧
      ((enc.y.bind fun c => c.type) = some FieldType.quantitative →
        (enc.y.bind fun c => c.stack) = some StackMode.zero ∧
          (enc.x.bind fun c => c.stack) = none) ∧
      ((enc.y.bind fun c => c.type) ≠ some FieldType.quantitative →
        (enc.x.bind fun c => c.type) = some FieldType.quantitative →
        (enc.x.bind fun c => c.stack) = some StackMode.zero ∧
          (enc.y.bind fun c => c.stack) = none) ∧
      ((enc.y.bind fun c => c.type) ≠ some FieldType.quantitative →
        (enc.x.bind fun c => c.type) ≠ some FieldType.quantitative →
        (enc.x.bind fun c => c.stack) = none ∧ (enc.y.bind fun c => c.stack) = none) :=
  c7_stacking_attachment stackedBarModel [] StackMode.zero rfl (Or.inl rfl)

/-- C10: applying a `set_top_n` operation without an explicit `byField` to
a model whose x and y channels carry no field removes every pre-existing
topN transform and adds none, so the result contains no topN transform. -/
theorem c10_topn_without_byfield_removes (M : BuilderState) (df : List DataField)
    (n : ℕ) (order : Option SortOrder) (plan : ChartEditPlan)
    (hplan : plan.operations = [Operation.set_top_n n none order])
    (hx : (M.encodings.x.bind fun c => c.field).getD "" = "")
    (hy : (M.encodings.y.bind fun c => c.field).getD "" = "") :
    (applyPlan M plan df).transforms = M.transforms.filter (fun t => !(isTopN t)) ∧
    ∀ t ∈ (applyPlan M plan df).transforms, isTopN t = false := by
  have hby : (((M.encodings.y.bind fun c => c.field).orElse
      fun _ => M.encodings.x.bind fun c => c.field).getD "") = "" := by
    cases hyy : M.encodings.y.bind fun c => c.field with
    | some s =>
        rw [hyy] at hy
        simp only [Option.orElse, Option.getD]
        simpa using hy
    | none =>
        rw [hyy] at hy
        simpa [Option.orElse] using hx
  have hfn : ∀ l : List ChartTransform, (l.filter fun t => match t with
      | ChartTransform.topN _ _ _ => false
      | _ => true) = l.filter fun t => !(isTopN t) := by
    intro l
    apply List.filter_congr
    intro t _
    cases t <;> rfl
  have hmain : (applyPlan M plan df).transforms = M.transforms.filter fun t => !(isTopN t) := by
    simp only [applyPlan, hplan, List.foldl_cons, List.foldl_nil, applyOp]
    simp only [Option.getD_none, hby]
    simp [hby, hfn]
  refine ⟨hmain, ?_⟩
  intro t ht
  rw [hmain] at ht
  simpa using (List.mem_filter.mp ht).2

/-- C10 witness: the removal contract discharged on a concrete model with a
pre-existing topN transform and empty axis channels. -/
theorem c10_topn_without_byfield_removes_witness :
    (applyPlan axislessModel topNOnlyPlan []).transforms =
      axislessModel.transforms.filter (fun t => !(isTopN t)) ∧
    ∀ t ∈ (applyPlan axislessModel topNOnlyPlan []).transforms, isTopN t = false :=
  c10_topn_without_byfield_removes axislessModel [] 3 none topNOnlyPlan rfl rfl rfl



/-- Helper: a prefix of an append is a prefix of the left part or extends
across it. -/
theorem prefix_append_cases {α : Type} {w x y : List α} (h : w <+: x ++ y) :
    w <+: x ∨ (x <+: w ∧ w.drop x.length <+: y) := by
  by_cases hl : w.length ≤ x.length
  · left
    rw [List.prefix_iff_eq_take] at h ⊢
    rw [h, List.take_append_eq_append_take]
    have h0 : w.length - x.length = 0 := by omega
    rw [h0, List.take_zero, List.append_nil, List.length_take]
    rw [min_eq_left hl]
  · right
    push_neg at hl
    have hw : w = x ++ y.take (w.length - x.length) := by
      rw [List.prefix_iff_eq_take] at h
      conv_lhs => rw [h]
      rw [List.take_append_eq_append_take, List.take_of_length_le (le_of_lt hl)]
    constructor
    · exact ⟨y.take (w.length - x.length), hw.symm⟩
    · rw [hw, List.drop_left]
      exact List.take_prefix _ _

/-- Helper: a nonempty prefix determines the head. -/
theorem head?_of_prefix {α : Type} {r z : List α} (h : r <+: z) (hne : r ≠ []) :
    z.head? = r.head? := by
  obtain ⟨t, ht⟩ := h
  rw [← ht, List.head?_append]
  cases r with
  | nil => exact absurd rfl hne
  | cons c cs => rfl

/-- Helper: unpacking a successful mark-word match. -/
theorem wordAt_some_elim {l : List Char} {m : MarkType}
    (h : NLPlanner.wordAt l = some m) :
    ∃ pm ∈ NLPlanner.markWords, pm.2 = m ∧ pm.1 <+: l := by
  obtain ⟨pm, hpm, hf⟩ := List.exists_of_findSome?_eq_some h
  by_cases hp : pm.1.isPrefixOf l = true
  · refine ⟨pm, hpm, ?_, List.isPrefixOf_iff_prefix.mp hp⟩
    simp [hp] at hf
    exact hf
  · simp [hp] at hf

/-- Helper: no mark word at a position where none is a prefix. -/
theorem wordAt_none_of_no_prefix {l : List Char}
    (h : ∀ pm ∈ NLPlanner.markWords, ¬ pm.1 <+: l) :
    NLPlanner.wordAt l = none := by
  apply List.findSome?_eq_none.mpr
  intro pm hpm
  have hfalse : pm.1.isPrefixOf l = false := by
    rw [← Bool.not_eq_true, List.isPrefixOf_iff_prefix]
    exact h pm hpm
  simp [hfalse]

/-- Finite fact: every mark word is nonempty. -/
theorem markWords_nonempty : ∀ pm ∈ NLPlanner.markWords, pm.1 ≠ [] := by decide

/-- Finite fact: mark words contain no whitespace. -/
theorem markWords_no_ws : ∀ pm ∈ NLPlanner.markWords, ∀ ch ∈ pm.1, jsWs ch = false := by
  decide

/-- Helper: no mark word starts at a whitespace character. -/
theorem wordAt_none_of_ws_head {z : List Char} {c : Char}
    (hc : z.head? = some c) (hw : jsWs c = true) :
    NLPlanner.wordAt z = none := by
  apply wordAt_none_of_no_prefix
  intro pm hpm hpre
  have hne : pm.1 ≠ [] := markWords_nonempty pm hpm
  have hh := head?_of_prefix hpre hne
  rw [hc] at hh
  cases hcons : pm.1 with
  | nil => exact hne hcons
  | cons c0 cs =>
      rw [hcons] at hh
      simp at hh
      have hmem : c0 ∈ pm.1 := by rw [hcons]; exact List.mem_cons_self _ _
      have hx := markWords_no_ws pm hpm c0 hmem
      rw [← hh] at hx
      rw [hw] at hx
      exact Bool.true_eq_false.mp hx

/-- Helper: a matched position starts with a non-whitespace character. -/
theorem wordAt_cons_not_ws {l : List Char} {m : MarkType}
    (h : NLPlanner.wordAt l = some m) :
    ∃ c rest, l = c :: rest ∧ jsWs c = false := by
  obtain ⟨pm, hpm, _, hpre⟩ := wordAt_some_elim h
  have hne : pm.1 ≠ [] := markWords_nonempty pm hpm
  cases hcons : pm.1 with
  | nil => exact absurd hcons hne
  | cons c0 cs =>
      rw [hcons] at hpre
      obtain ⟨t, ht⟩ := hpre
      refine ⟨c0, cs ++ t, by rw [← ht]; simp, ?_⟩
      exact markWords_no_ws pm hpm c0 (by rw [hcons]; exact List.mem_cons_self _ _)

/-- Helper: the first-occurrence scan skips a block with no matches. -/
theorem firstMarkWord_skip : ∀ (x y : List Char),
    (∀ j, j < x.length → NLPlanner.wordAt ((x ++ y).drop j) = none) →
    firstMarkWord (x ++ y) = firstMarkWord y := by
  intro x
  induction x with
  | nil => intro y _; rfl
  | cons c x' ih =>
      intro y h
      have h0 : NLPlanner.wordAt (c :: (x' ++ y)) = none := by
        have := h 0 (by simp)
        simpa using this
      show (NLPlanner.wordAt (c :: (x' ++ y))).orElse
          (fun _ => firstMarkWord (x' ++ y)) = firstMarkWord y
      rw [h0]
      show firstMarkWord (x' ++ y) = firstMarkWord y
      apply ih
      intro j hj
      have := h (j + 1) (by simpa using Nat.succ_lt_succ hj)
      simpa using this

/-- Finite fact (boolean form): no mark word occurs inside a change phrase. -/
theorem phrasesNoWordBool :
    (NLPlanner.changePhrases.all fun p => (List.range (p.length + 1)).all fun i =>
      NLPlanner.markWords.all fun pm => !(pm.1.isPrefixOf (p.drop i))) = true := by decide

/-- Finite fact: no mark word is a prefix of any suffix of a change phrase. -/
theorem phrasesNoWord : ∀ p ∈ NLPlanner.changePhrases, ∀ (i : ℕ),
    ∀ pm ∈ NLPlanner.markWords, ¬ pm.1 <+: p.drop i := by
  intro p hp i pm hpm hpre
  by_cases hi : i ≤ p.length
  · have h1 := phrasesNoWordBool
    simp only [List.all_eq_true] at h1
    have h2 := h1 p hp i (by simp [List.mem_range]; omega) pm hpm
    rw [← List.isPrefixOf_iff_prefix] at hpre
    simp [hpre] at h2
  · push_neg at hi
    have hdrop : p.drop i = [] := List.drop_eq_nil_of_le (by omega)
    rw [hdrop] at hpre
    exact markWords_nonempty pm hpm (List.prefix_nil.mp hpre)

/-- Finite fact (boolean form): no mark word straddles a phrase boundary
ending inside another mark word. -/
theorem straddleShortBool :
    (NLPlanner.changePhrases.all fun p => (List.range p.length).all fun j =>
      NLPlanner.markWords.all fun w0 => NLPlanner.markWords.all fun w =>
        !((p.drop j).isPrefixOf w0.1 && decide (p.length - j < w0.1.length) &&
          (w0.1.drop (p.length - j)).isPrefixOf w.1)) = true := by decide

/-- Finite fact: no mark word is a phrase suffix followed by a prefix of a
mark word. -/
theorem straddleShort : ∀ p ∈ NLPlanner.changePhrases, ∀ j, j < p.length →
    ∀ w0 ∈ NLPlanner.markWords, ∀ w ∈ NLPlanner.markWords,
    ¬(p.drop j <+: w0.1 ∧ p.length - j < w0.1.length ∧
      w0.1.drop (p.length - j) <+: w.1) := by
  intro p hp j hj w0 hw0 w hw ⟨h1, h2, h3⟩
  have hb := straddleShortBool
  simp only [List.all_eq_true] at hb
  have := hb p hp j (by simp [List.mem_range]; omega) w0 hw0 w hw
  rw [← List.isPrefixOf_iff_prefix] at h1 h3
  simp [h1, h3, h2] at this

/-- Finite fact (boolean form): no mark word contains a phrase suffix, a
whole mark word, and more. -/
theorem straddleLongBool :
    (NLPlanner.changePhrases.all fun p => (List.range p.length).all fun j =>
      NLPlanner.markWords.all fun w0 => NLPlanner.markWords.all fun w =>
        !((p.drop j).isPrefixOf w0.1 && w.1.isPrefixOf (w0.1.drop (p.length - j)) &&
          decide (p.length - j + w.1.length < w0.1.length))) = true := by decide

/-- Finite fact: no mark word decomposes as phrase suffix, a whole mark
word, and a nonempty remainder. -/
theorem straddleLong : ∀ p ∈ NLPlanner.changePhrases, ∀ j, j < p.length →
    ∀ w0 ∈ NLPlanner.markWords, ∀ w ∈ NLPlanner.markWords,
    ¬(p.drop j <+: w0.1 ∧ w.1 <+: w0.1.drop (p.length - j) ∧
      p.length - j + w.1.length < w0.1.length) := by
  intro p hp j hj w0 hw0 w hw ⟨h1, h2, h3⟩
  have hb := straddleLongBool
  simp only [List.all_eq_true] at hb
  have := hb p hp j (by simp [List.mem_range]; omega) w0 hw0 w hw
  rw [← List.isPrefixOf_iff_prefix] at h1 h2
  simp [h1, h2, h3] at this

/-- Helper: a match right after leading whitespace is the first occurrence. -/
theorem firstMarkWord_of_dropWhile {t : List Char} {m : MarkType}
    (h : NLPlanner.wordAt (t.dropWhile jsWs) = some m) :
    firstMarkWord t = some m := by
  have htu : t.takeWhile jsWs ++ t.dropWhile jsWs = t := List.takeWhile_append_dropWhile _ _
  have key : ∀ j, j < (t.takeWhile jsWs).length →
      NLPlanner.wordAt ((t.takeWhile jsWs ++ t.dropWhile jsWs).drop j) = none := by
    intro j hj
    have hdrop : (t.takeWhile jsWs ++ t.dropWhile jsWs).drop j =
        (t.takeWhile jsWs).drop j ++ t.dropWhile jsWs := by
      rw [List.drop_append_eq_append_drop]
      have h0 : j - (t.takeWhile jsWs).length = 0 := by omega
      rw [h0, List.drop_zero]
    have hne : (t.takeWhile jsWs).drop j ≠ [] := by
      apply List.ne_nil_of_length_pos
      rw [List.length_drop]
      omega
    cases hcons : (t.takeWhile jsWs).drop j with
    | nil => exact absurd hcons hne
    | cons c zz =>
        have hc : ((t.takeWhile jsWs ++ t.dropWhile jsWs).drop j).head? = some c := by
          rw [hdrop, hcons]; rfl
        have hcw : jsWs c = true := by
          apply List.mem_takeWhile_imp (l := t)
          apply List.mem_of_mem_drop (n := j)
          rw [hcons]
          exact List.mem_cons_self _ _
        exact wordAt_none_of_ws_head hc hcw
  have hskip := firstMarkWord_skip (t.takeWhile jsWs) (t.dropWhile jsWs) key
  rw [htu] at hskip
  rw [hskip]
  obtain ⟨c, rest, hcons, _⟩ := wordAt_cons_not_ws h
  rw [hcons]
  show (NLPlanner.wordAt (c :: rest)).orElse (fun _ => firstMarkWord rest) = some m
  rw [← hcons, h]
  rfl

/-- Helper (the key straddle analysis): a match right after a change phrase
and whitespace is the first occurrence in the whole text. -/
theorem firstMarkWord_after_phrase {p t : List Char} {m : MarkType}
    (hp : p ∈ NLPlanner.changePhrases)
    (h : NLPlanner.wordAt (t.dropWhile jsWs) = some m) :
    firstMarkWord (p ++ t) = some m := by
  have htu : t.takeWhile jsWs ++ t.dropWhile jsWs = t := List.takeWhile_append_dropWhile _ _
  obtain ⟨pm, hpm, hm2, hpre⟩ := wordAt_some_elim h
  obtain ⟨v, hv⟩ := hpre
  -- key: no mark word starts inside p or inside the whitespace run
  have key : ∀ j, j < (p ++ t.takeWhile jsWs).length →
      NLPlanner.wordAt (((p ++ t.takeWhile jsWs) ++ t.dropWhile jsWs).drop j) = none := by
    intro j hj
    rw [List.length_append] at hj
    by_cases hjp : j < p.length
    · -- position inside the phrase
      have hdrop : ((p ++ t.takeWhile jsWs) ++ t.dropWhile jsWs).drop j =
          p.drop j ++ (t.takeWhile jsWs ++ t.dropWhile jsWs) := by
        rw [List.append_assoc, List.drop_append_eq_append_drop]
        have h0 : j - p.length = 0 := by omega
        rw [h0, List.drop_zero]
      rw [hdrop]
      apply wordAt_none_of_no_prefix
      intro pm0 hpm0 hpre0
      rcases prefix_append_cases hpre0 with hcase | ⟨hsp, hrest⟩
      · exact phrasesNoWord p hp j pm0 hpm0 hcase
      · rw [List.length_drop] at hrest
        by_cases hr0 : pm0.1.drop (p.length - j) = []
        · have hlen0 : pm0.1.length ≤ p.length - j := by
            have := List.length_drop (p.length - j) pm0.1
            rw [hr0] at this
            simp at this
            omega
          have hlen1 : (p.drop j).length ≤ pm0.1.length := hsp.length_le
          rw [List.length_drop] at hlen1
          have heq : p.drop j = pm0.1 := by
            apply hsp.eq_of_length
            rw [List.length_drop]
            omega
          exact phrasesNoWord p hp j pm0 hpm0 (heq ▸ List.prefix_refl _)
        · cases hws : t.takeWhile jsWs with
          | cons cw wsrest =>
              rw [hws] at hrest
              have hh := head?_of_prefix hrest hr0
              have hh2 : (cw :: wsrest ++ t.dropWhile jsWs).head? = some cw := rfl
              rw [hh2] at hh
              cases hcons2 : pm0.1.drop (p.length - j) with
              | nil => exact absurd hcons2 hr0
              | cons c0 r0rest =>
                  rw [hcons2] at hh
                  simp at hh
                  have hmem0 : c0 ∈ pm0.1 :=
                    List.mem_of_mem_drop (by rw [hcons2]; exact List.mem_cons_self _ _)
                  have hnw := markWords_no_ws pm0 hpm0 c0 hmem0
                  have hcw2 : jsWs cw = true := by
                    apply List.mem_takeWhile_imp (l := t)
                    rw [hws]
                    exact List.mem_cons_self _ _
                  rw [hh] at hcw2
                  rw [hnw] at hcw2
                  exact Bool.false_eq_true.mp hcw2
          | nil =>
              rw [hws] at hrest
              simp only [List.nil_append] at hrest
              rw [← hv] at hrest
              have hlen1 : p.length - j < pm0.1.length := by
                have := List.length_drop (p.length - j) pm0.1
                by_contra hcon
                push_neg at hcon
                exact hr0 (List.drop_eq_nil_of_le hcon)
              rcases prefix_append_cases hrest with hc1 | ⟨hc2, hc3⟩
              · exact straddleShort p hp j hjp pm0 hpm0 pm hpm ⟨hsp, hlen1, hc1⟩
              · by_cases hlen2 : pm0.1.length ≤ p.length - j + pm.1.length
                · have heq2 : pm.1 = pm0.1.drop (p.length - j) := by
                    apply hc2.eq_of_length
                    rw [List.length_drop]
                    have := hc2.length_le
                    rw [List.length_drop] at this
                    omega
                  exact straddleShort p hp j hjp pm0 hpm0 pm hpm
                    ⟨hsp, hlen1, heq2 ▸ List.prefix_refl _⟩
                · push_neg at hlen2
                  exact straddleLong p hp j hjp pm0 hpm0 pm hpm ⟨hsp, hc2, by omega⟩
    · -- position inside the whitespace run
      push_neg at hjp
      have hdrop : ((p ++ t.takeWhile jsWs) ++ t.dropWhile jsWs).drop j =
          (t.takeWhile jsWs).drop (j - p.length) ++ t.dropWhile jsWs := by
        rw [List.drop_append_eq_append_drop, List.drop_append_eq_append_drop]
        have h0 : p.drop j = [] := List.drop_eq_nil_of_le (by omega)
        have h1 : j - (p ++ t.takeWhile jsWs).length = 0 := by
          rw [List.length_append]; omega
        rw [h0, h1, List.drop_zero, List.nil_append]
      have hne : (t.takeWhile jsWs).drop (j - p.length) ≠ [] := by
        apply List.ne_nil_of_length_pos
        rw [List.length_drop]
        omega
      cases hcons : (t.takeWhile jsWs).drop (j - p.length) with
      | nil => exact absurd hcons hne
      | cons c zz =>
          have hc : (((p ++ t.takeWhile jsWs) ++ t.dropWhile jsWs).drop j).head? = some c := by
            rw [hdrop, hcons]; rfl
          have hcw : jsWs c = true := by
            apply List.mem_takeWhile_imp (l := t)
            apply List.mem_of_mem_drop (n := j - p.length)
            rw [hcons]
            exact List.mem_cons_self _ _
          exact wordAt_none_of_ws_head hc hcw
  have hskip := firstMarkWord_skip (p ++ t.takeWhile jsWs) (t.dropWhile jsWs) key
  rw [List.append_assoc, htu] at hskip
  rw [hskip]
  obtain ⟨c, rest, hcons, _⟩ := wordAt_cons_not_ws h
  rw [hcons]
  show (NLPlanner.wordAt (c :: rest)).orElse (fun _ => firstMarkWord rest) = some m
  rw [← hcons, h]
  rfl

/-- Helper: a positional match of the full mark regex captures the first
substring occurrence from that position on. -/
theorem tryMarkAt_firstMarkWord {l : List Char} {m : MarkType}
    (h : NLPlanner.tryMarkAt l = some m) :
    firstMarkWord l = some m := by
  unfold NLPlanner.tryMarkAt at h
  cases hph : NLPlanner.changePhrases.findSome? fun p =>
      if p.isPrefixOf l then NLPlanner.wordAt ((l.drop p.length).dropWhile jsWs)
      else none with
  | some m' =>
      rw [hph] at h
      have hm' : m' = m := by simpa [Option.orElse] using h
      subst hm'
      obtain ⟨p, hp, hf⟩ := List.exists_of_findSome?_eq_some hph
      by_cases hpre : p.isPrefixOf l = true
      · rw [if_pos hpre] at hf
        obtain ⟨t, ht⟩ := List.isPrefixOf_iff_prefix.mp hpre
        rw [← ht, List.drop_left] at hf
        rw [← ht]
        exact firstMarkWord_after_phrase hp hf
      · rw [if_neg hpre] at hf
        exact absurd hf (by simp)
  | none =>
      rw [hph] at h
      have h2 : NLPlanner.wordAt (l.dropWhile jsWs) = some m := by
        simpa [Option.orElse] using h
      exact firstMarkWord_of_dropWhile h2

/-- Helper: if the full regex fails at a position, no bare mark word starts
there. -/
theorem tryMarkAt_none_wordAt {l : List Char}
    (h : NLPlanner.tryMarkAt l = none) :
    NLPlanner.wordAt l = none := by
  cases hw : NLPlanner.wordAt l with
  | none => rfl
  | some m =>
      obtain ⟨c, rest, hcons, hnws⟩ := wordAt_cons_not_ws hw
      have hdw : l.dropWhile jsWs = l := by
        rw [hcons, List.dropWhile_cons, hnws]
        simp
      unfold NLPlanner.tryMarkAt at h
      cases hph : NLPlanner.changePhrases.findSome? fun p =>
          if p.isPrefixOf l then NLPlanner.wordAt ((l.drop p.length).dropWhile jsWs)
          else none with
      | some m' => rw [hph] at h; simp [Option.orElse] at h
      | none =>
          rw [hph] at h
          rw [show ((none : Option MarkType).orElse
            fun _ => NLPlanner.wordAt (l.dropWhile jsWs)) =
              NLPlanner.wordAt (l.dropWhile jsWs) from rfl] at h
          rw [hdw, hw] at h
          exact absurd h (by simp)

/-- Helper: the planner's leftmost mark-regex scan computes exactly the
first plain substring occurrence of a mark word. -/
theorem markScan_eq_firstMarkWord : ∀ l : List Char,
    NLPlanner.markMatch l = firstMarkWord l := by
  intro l
  induction l with
  | nil =>
      show NLPlanner.tryMarkAt [] = none
      decide
  | cons c rest ih =>
      show (NLPlanner.tryMarkAt (c :: rest)).orElse
          (fun _ => NLPlanner.markMatch rest) = firstMarkWord (c :: rest)
      cases htry : NLPlanner.tryMarkAt (c :: rest) with
      | some m =>
          have := tryMarkAt_firstMarkWord htry
          rw [this]
          rfl
      | none =>
          have hw := tryMarkAt_none_wordAt htry
          show NLPlanner.markMatch rest = firstMarkWord (c :: rest)
          rw [ih]
          show firstMarkWord rest =
            (NLPlanner.wordAt (c :: rest)).orElse fun _ => firstMarkWord rest
          rw [hw]
          rfl

/-- C9: for every input whose lower-cased, trimmed text contains one of the
ten mark-type words anywhere as a substring (no word boundary or change
phrase required), the returned plan contains a `set_mark` operation whose
mark is the first such substring occurrence. -/
theorem c9_mark_substring (input : String) (fieldNames : List String)
    (b : BuilderState) (m : MarkType)
    (h : firstMarkWord (NLPlanner.norm (jsTrim input)).toList = some m) :
    ∃ o ∈ (NLPlanner.parseNLToPlan input fieldNames b).operations,
      ∃ opts, o = Operation.set_mark m opts := by
  have hscan : NLPlanner.markMatch (NLPlanner.norm (jsTrim input)).toList = some m := by
    rw [markScan_eq_firstMarkWord]
    exact h
  refine ⟨Operation.set_mark m (some
    { point := some (listContainsSub (NLPlanner.norm (jsTrim input)).toList
        ("with points".toList)),
      stacked := none }), ?_, _, rfl⟩
  simp only [NLPlanner.parseNLToPlan, hscan]
  split
  · simp [List.mem_append]
  · simp [List.mem_append]

/-- C9 witness: `"contextual"` contains `"text"` (inside a longer word) as
its first mark-word occurrence, and the plan carries `set_mark text`. -/
theorem c9_mark_substring_witness :
    (firstMarkWord (NLPlanner.norm (jsTrim "contextual")).toList = some MarkType.text) ∧
    ∃ o ∈ (NLPlanner.parseNLToPlan "contextual" [] getDefaultBuilderState).operations,
      ∃ opts, o = Operation.set_mark MarkType.text opts :=
  ⟨by decide, c9_mark_substring "contextual" [] getDefaultBuilderState MarkType.text (by decide)⟩

/-- Helper: `parseEncodingChannel` ignores the `stack` key. -/
theorem pc_stack_irrel (ch : VLChannel) (st : Option StackMode) :
    parseEncodingChannel { ch with stack := st } = parseEncodingChannel ch := rfl

/-- Helper: rebuilding a channel from its parse reproduces the compiled channel, for a populated (truthy-field) config. -/
theorem bc_pc_bc (c : EncodingConfig) (hf : strTruthy c.field = true) :
    buildEncodingChannel (parseEncodingChannel (buildEncodingChannel c)) =
      buildEncodingChannel c := by
  rcases c with ⟨f, ty, ag, bin, tu, so, sc, ax, lg⟩
  cases f with
  | none => simp [strTruthy] at hf
  | some s =>
      have hs : s ≠ "" := by simpa [strTruthy] using hf
      unfold buildEncodingChannel parseEncodingChannel
      simp only [VLChannel.mk.injEq]
      and_intros <;>
        first
          | trivial
          | (simp [strTruthy, hs]; done)
          | (cases tu with
             | none => rfl
             | some u => by_cases hu : u = "" <;> simp [hu])

/-- Helper: the parse of a compiled populated channel still has a truthy field. -/
theorem pc_bc_field (c : EncodingConfig) (hf : strTruthy c.field = true) :
    strTruthy (parseEncodingChannel (buildEncodingChannel c)).field = true := by
  rcases c with ⟨f, ty, ag, bin, tu, so, sc, ax, lg⟩
  cases f with
  | none => simp [strTruthy] at hf
  | some s =>
      have hs : s ≠ "" := by simpa [strTruthy] using hf
      simp [buildEncodingChannel, parseEncodingChannel, strTruthy, hs]

/-- Helper: one-channel round trip through compile, parse, compile. -/
theorem compileChannel_rt (oc : Option EncodingConfig) :
    compileChannel ((compileChannel oc).map parseEncodingChannel) = compileChannel oc := by
  cases oc with
  | none => rfl
  | some c =>
      by_cases hf : strTruthy c.field = true
      · have h1 : compileChannel (some c) = some (buildEncodingChannel c) := by
          simp [compileChannel, hf]
        rw [h1]
        show compileChannel (some (parseEncodingChannel (buildEncodingChannel c))) =
          some (buildEncodingChannel c)
        simp [compileChannel, pc_bc_field c hf, bc_pc_bc c hf]
      · have h1 : compileChannel (some c) = none := by
          simp [compileChannel, hf]
        rw [h1]
        rfl

/-- Helper: the one-channel round trip also absorbs a stack directive attached by the stacking fix-up, since the parser drops `stack`. -/
theorem compileChannel_rt_stacked (oc : Option EncodingConfig) (sm : StackMode) :
    compileChannel (((compileChannel oc).map fun ch =>
      { ch with stack := some sm }).map parseEncodingChannel) = compileChannel oc := by
  rw [Option.map_map]
  have hcomp : (parseEncodingChannel ∘ fun ch : VLChannel => { ch with stack := some sm }) =
      parseEncodingChannel := by
    funext ch
    exact pc_stack_irrel ch (some sm)
  rw [hcomp]
  exact compileChannel_rt oc

/-- Helper: a freshly compiled channel never carries a stack directive. -/
theorem compileChannel_stack (oc : Option EncodingConfig) :
    ((compileChannel oc).bind fun ch => ch.stack) = none := by
  cases oc with
  | none => rfl
  | some c =>
      by_cases hf : strTruthy c.field = true <;>
        simp [compileChannel, hf, buildEncodingChannel]

/-- Helper: the transform list round-trips when every entry is a simple filter or calculate. -/
theorem parseTransforms_rt (ts : List ChartTransform) (h : ts.all simpleTransform = true) :
    parseTransforms (buildTransforms ts) = ts := by
  induction ts with
  | nil => rfl
  | cons t rest ih =>
      rw [List.all_cons, Bool.and_eq_true] at h
      obtain ⟨ht, hrest⟩ := h
      cases t with
      | filter e =>
          have he : e ≠ "" := by simpa [simpleTransform] using ht
          simp [buildTransforms, parseTransforms, he, ih hrest]
      | calculate e a =>
          have he : e ≠ "" := by simpa [simpleTransform] using ht
          simp [buildTransforms, parseTransforms, he, ih hrest]
      | topN n b o => simp [simpleTransform] at ht
      | aggregate a b cc d => simp [simpleTransform] at ht

/-- Helper: under the same simplicity hypothesis, the compiled transform list is empty exactly when the model list is. -/
theorem buildTransforms_nil_iff (ts : List ChartTransform) (h : ts.all simpleTransform = true) :
    buildTransforms ts = [] ↔ ts = [] := by
  cases ts with
  | nil => simp [buildTransforms]
  | cons t rest =>
      rw [List.all_cons, Bool.and_eq_true] at h
      cases t with
      | filter e => simp [buildTransforms]
      | calculate e a => simp [buildTransforms]
      | topN n b o => simp [simpleTransform] at h
      | aggregate a b cc d => simp [simpleTransform] at h

/-- Helper: the tooltip block round-trips for a simple tooltip slot over nonempty field names. -/
theorem tooltip_rt (t : Option TooltipSetting) (fields : List DataField)
    (ht : simpleTooltip t = true) (hf : (fields.all fun f => f.name ≠ "") = true) :
    buildTooltip ((buildTooltip t fields).map fun l =>
      TooltipSetting.explicit (l.map parseTooltipEntry)) fields = buildTooltip t fields := by
  cases t with
  | none => rfl
  | some ts =>
      cases ts with
      | auto =>
          simp only [buildTooltip, Option.map_some']
          congr 1
          rw [List.map_map, List.map_map]
          apply List.map_congr_left
          intro f hfmem
          have hmem : f ∈ fields := List.take_subset _ _ hfmem
          have hname : f.name ≠ "" := by
            rw [List.all_eq_true] at hf
            simpa using hf f hmem
          simp [parseTooltipEntry, strTruthy, hname, emptyEncodingConfig, Function.comp]
      | explicit l =>
          simp only [buildTooltip, Option.map_some']
          congr 1
          rw [List.map_map, List.map_map]
          apply List.map_congr_left
          intro e hmem
          simp only [simpleTooltip, List.all_eq_true] at ht
          have hte := ht e hmem
          rw [Bool.and_eq_true] at hte
          obtain ⟨hfld, hax⟩ := hte
          have hfld2 : e.field ≠ some "" := by simpa using hfld
          have hax2 : (e.axis.bind fun a => a.format) = none := by simpa using hax
          simp only [Function.comp, parseTooltipEntry, emptyEncodingConfig]
          cases hef : e.field with
          | none => simp [strTruthy, hax2, ← hef]
          | some s =>
              have hs : s ≠ "" := by rw [hef] at hfld2; simpa using hfld2
              simp [strTruthy, hs, hax2, ← hef]

/-- Helper: the full pre-stacking encoding block round-trips channel by channel. -/
theorem base_rt (ocx ocy occ ocs : Option EncodingConfig)
    (tt : Option TooltipSetting) (fields : List DataField)
    (htt : simpleTooltip tt = true)
    (hf : (fields.all fun f => f.name ≠ "") = true) :
    VLEncoding.mk
      (compileChannel ((compileChannel ocx).map parseEncodingChannel))
      (compileChannel ((compileChannel ocy).map parseEncodingChannel))
      (compileChannel ((compileChannel occ).map parseEncodingChannel))
      (compileChannel ((compileChannel ocs).map parseEncodingChannel))
      (buildTooltip ((buildTooltip tt fields).map fun l =>
        TooltipSetting.explicit (l.map parseTooltipEntry)) fields) =
    VLEncoding.mk (compileChannel ocx) (compileChannel ocy)
      (compileChannel occ) (compileChannel ocs) (buildTooltip tt fields) := by
  rw [compileChannel_rt, compileChannel_rt, compileChannel_rt, compileChannel_rt,
    tooltip_rt tt fields htt hf]

/-- Helper: the complete encoding block, including the stacking fix-up, round-trips: recompiling the parsed channels under the parsed mark (whose `stacked` is recovered from whichever axis carries a stack directive, y preferred) reproduces the original compiled encoding. -/
theorem encoding_rt_general (mk mk2 : MarkConfig)
    (Bx By Bc Bs : Option VLChannel) (Bt : Option (List VLTooltipEntry))
    (ocx ocy occ ocs : Option EncodingConfig) (tt : Option TooltipSetting)
    (fields : List DataField)
    (hBx : Bx = compileChannel ocx) (hBy : By = compileChannel ocy)
    (hBc : Bc = compileChannel occ) (hBs : Bs = compileChannel ocs)
    (hBt : Bt = buildTooltip tt fields)
    (htt : simpleTooltip tt = true)
    (hf : (fields.all fun f => f.name ≠ "") = true)
    (hty : mk2.type = mk.type)
    (hst2 : mk2.stacked =
      (match (applyStacking mk (VLEncoding.mk Bx By Bc Bs Bt)).y.bind
          (fun c => c.stack) with
       | some s => some s
       | none => (applyStacking mk (VLEncoding.mk Bx By Bc Bs Bt)).x.bind
          fun c => c.stack)) :
    applyStacking mk2
      (VLEncoding.mk
        (compileChannel ((applyStacking mk (VLEncoding.mk Bx By Bc Bs Bt)).x.map
          parseEncodingChannel))
        (compileChannel ((applyStacking mk (VLEncoding.mk Bx By Bc Bs Bt)).y.map
          parseEncodingChannel))
        (compileChannel ((applyStacking mk (VLEncoding.mk Bx By Bc Bs Bt)).color.map
          parseEncodingChannel))
        (compileChannel ((applyStacking mk (VLEncoding.mk Bx By Bc Bs Bt)).size.map
          parseEncodingChannel))
        (buildTooltip ((applyStacking mk (VLEncoding.mk Bx By Bc Bs Bt)).tooltip.map
          fun l => TooltipSetting.explicit (l.map parseTooltipEntry)) fields)) =
      applyStacking mk (VLEncoding.mk Bx By Bc Bs Bt) := by
  subst hBx hBy hBc hBs hBt
  have hxs := compileChannel_stack ocx
  have hys := compileChannel_stack ocy
  cases hmk : mk.stacked with
  | none =>
      have hAS : applyStacking mk (VLEncoding.mk (compileChannel ocx)
          (compileChannel ocy) (compileChannel occ) (compileChannel ocs)
          (buildTooltip tt fields)) = VLEncoding.mk (compileChannel ocx)
          (compileChannel ocy) (compileChannel occ) (compileChannel ocs)
          (buildTooltip tt fields) := by
        simp [applyStacking, hmk]
      rw [hAS] at hst2 ⊢
      simp only [hys, hxs] at hst2
      rw [base_rt ocx ocy occ ocs tt fields htt hf]
      simp [applyStacking, hst2]
  | some sm =>
      by_cases hbar : mk.type = MarkType.bar ∨ mk.type = MarkType.area
      · by_cases hyq : (((compileChannel ocy).map fun c => c.type).bind fun a => a) =
            some FieldType.quantitative
        · have hcye : ∃ cy, compileChannel ocy = some cy := by
            cases h : compileChannel ocy with
            | none => rw [h] at hyq; simp at hyq
            | some c => exact ⟨c, rfl⟩
          obtain ⟨cy, hcy⟩ := hcye
          have hcyq : cy.type = some FieldType.quantitative := by
            rw [hcy] at hyq; simpa using hyq
          have hAS : applyStacking mk (VLEncoding.mk (compileChannel ocx)
              (compileChannel ocy) (compileChannel occ) (compileChannel ocs)
              (buildTooltip tt fields)) = VLEncoding.mk (compileChannel ocx)
              ((compileChannel ocy).map fun c => { c with stack := some sm })
              (compileChannel occ) (compileChannel ocs)
              (buildTooltip tt fields) := by
            simp [applyStacking, hmk, hbar, Option.join, hyq]
          rw [hAS] at hst2 ⊢
          rw [hcy] at hst2
          have hst2' : mk2.stacked = some sm := by simpa using hst2
          rw [compileChannel_rt, compileChannel_rt_stacked, compileChannel_rt,
            compileChannel_rt, tooltip_rt tt fields htt hf]
          simp [applyStacking, hst2', hty, hbar, Option.join, hcy, hcyq]
        · by_cases hxq : (((compileChannel ocx).map fun c => c.type).bind fun a => a) =
              some FieldType.quantitative
          · have hcxe : ∃ cx, compileChannel ocx = some cx := by
              cases h : compileChannel ocx with
              | none => rw [h] at hxq; simp at hxq
              | some c => exact ⟨c, rfl⟩
            obtain ⟨cx, hcx⟩ := hcxe
            have hcxq : cx.type = some FieldType.quantitative := by
              rw [hcx] at hxq; simpa using hxq
            have hAS : applyStacking mk (VLEncoding.mk (compileChannel ocx)
                (compileChannel ocy) (compileChannel occ) (compileChannel ocs)
                (buildTooltip tt fields)) = VLEncoding.mk
                ((compileChannel ocx).map fun c => { c with stack := some sm })
                (compileChannel ocy)
                (compileChannel occ) (compileChannel ocs)
                (buildTooltip tt fields) := by
              simp [applyStacking, hmk, hbar, Option.join, hyq, hxq]
            rw [hAS] at hst2 ⊢
            rw [hcx] at hst2
            have hst2' : mk2.stacked = some sm := by simpa [hys] using hst2
            rw [compileChannel_rt_stacked, compileChannel_rt, compileChannel_rt,
              compileChannel_rt, tooltip_rt tt fields htt hf]
            simp [applyStacking, hst2', hty, hbar, Option.join, hyq, hcx, hcxq]
          · have hAS : applyStacking mk (VLEncoding.mk (compileChannel ocx)
                (compileChannel ocy) (compileChannel occ) (compileChannel ocs)
                (buildTooltip tt fields)) = VLEncoding.mk (compileChannel ocx)
                (compileChannel ocy) (compileChannel occ) (compileChannel ocs)
                (buildTooltip tt fields) := by
              simp [applyStacking, hmk, hbar, Option.join, hyq, hxq]
            rw [hAS] at hst2 ⊢
            simp only [hys, hxs] at hst2
            rw [base_rt ocx ocy occ ocs tt fields htt hf]
            simp [applyStacking, hst2]
      · have hAS : applyStacking mk (VLEncoding.mk (compileChannel ocx)
            (compileChannel ocy) (compileChannel occ) (compileChannel ocs)
            (buildTooltip tt fields)) = VLEncoding.mk (compileChannel ocx)
            (compileChannel ocy) (compileChannel occ) (compileChannel ocs)
            (buildTooltip tt fields) := by
          simp [applyStacking, hmk, hbar]
        rw [hAS] at hst2 ⊢
        simp only [hys, hxs] at hst2
        rw [base_rt ocx ocy occ ocs tt fields htt hf]
        simp [applyStacking, hst2]

/-- Helper: the title/description/background truthiness normalisation is idempotent. -/
theorem normIdem (t : Option String) :
    (if strTruthy (if strTruthy t then t else none) then
      (if strTruthy t then t else none) else none) =
    if strTruthy t then t else none := by
  cases t with
  | none => rfl
  | some s => by_cases h : s = "" <;> simp [strTruthy, h]

/-- Helper: decompiling and completing recovers the transform list of a model with simple transforms. -/
theorem completeWith_transforms (M : BuilderState) (fields : List DataField)
    (hsimple : M.transforms.all simpleTransform = true) :
    (completeWith getDefaultBuilderState
      (parseSpecToBuilderState (buildSpec M fields))).transforms = M.transforms := by
  show (match (if (buildTransforms M.transforms).length > 0 then
      some (buildTransforms M.transforms) else none : Option (List VLTransform)) with
    | some ts => parseTransforms ts
    | none => []) = M.transforms
  by_cases hl : (buildTransforms M.transforms).length > 0
  · simp only [if_pos hl]
    exact parseTransforms_rt M.transforms hsimple
  · simp only [if_neg hl]
    have hnil : buildTransforms M.transforms = [] := by
      cases h : buildTransforms M.transforms with
      | nil => rfl
      | cons a as => rw [h] at hl; simp at hl
    exact ((buildTransforms_nil_iff M.transforms hsimple).1 hnil).symm

/-- Helper: decompiling and completing recovers the width. -/
theorem completeWith_width (M : BuilderState) (fields : List DataField) :
    (completeWith getDefaultBuilderState
      (parseSpecToBuilderState (buildSpec M fields))).width = M.width := by
  show Option.getD (match (match M.width with
      | Dimension.px q => some q
      | Dimension.container => none : Option Rat) with
    | some q => some (Dimension.px q)
    | none => some Dimension.container) getDefaultBuilderState.width = M.width
  cases M.width <;> rfl

/-- Helper: decompiling and completing recovers the height. -/
theorem completeWith_height (M : BuilderState) (fields : List DataField) :
    (completeWith getDefaultBuilderState
      (parseSpecToBuilderState (buildSpec M fields))).height = M.height := by
  show Option.getD (match (match M.height with
      | Dimension.px q => some q
      | Dimension.container => none : Option Rat) with
    | some q => some (Dimension.px q)
    | none => some Dimension.container) getDefaultBuilderState.height = M.height
  cases M.height <;> rfl

/-- Helper: decompiling and completing yields the truthiness-normalised title. -/
theorem completeWith_title (M : BuilderState) (fields : List DataField) :
    (completeWith getDefaultBuilderState
      (parseSpecToBuilderState (buildSpec M fields))).title =
    if strTruthy M.title then M.title else none := by
  show (match (if strTruthy (if strTruthy M.title then M.title else none) then
      (if strTruthy M.title then M.title else none) else none : Option String) with
    | some t => some t
    | none => getDefaultBuilderState.title) =
    if strTruthy M.title then M.title else none
  rw [normIdem]
  by_cases h : strTruthy M.title = true
  · cases ht : M.title with
    | none => rw [ht] at h; simp [strTruthy] at h
    | some s => rw [ht] at h; simp [h]
  · rw [if_neg h]
    rfl

/-- Helper: decompiling and completing yields the truthiness-normalised description. -/
theorem completeWith_description (M : BuilderState) (fields : List DataField) :
    (completeWith getDefaultBuilderState
      (parseSpecToBuilderState (buildSpec M fields))).description =
    if strTruthy M.description then M.description else none := by
  show (match (if strTruthy (if strTruthy M.description then M.description else none) then
      (if strTruthy M.description then M.description else none) else none : Option String) with
    | some t => some t
    | none => getDefaultBuilderState.description) =
    if strTruthy M.description then M.description else none
  rw [normIdem]
  by_cases h : strTruthy M.description = true
  · cases ht : M.description with
    | none => rw [ht] at h; simp [strTruthy] at h
    | some s => rw [ht] at h; simp [h]
  · rw [if_neg h]
    rfl

/-- Helper: decompiling and completing yields the truthiness-normalised background. -/
theorem completeWith_background (M : BuilderState) (fields : List DataField) :
    (completeWith getDefaultBuilderState
      (parseSpecToBuilderState (buildSpec M fields))).background =
    if strTruthy M.background then M.background else none := by
  show (match (if strTruthy (if strTruthy M.background then M.background else none) then
      (if strTruthy M.background then M.background else none) else none : Option String) with
    | some t => some t
    | none => getDefaultBuilderState.background) =
    if strTruthy M.background then M.background else none
  rw [normIdem]
  by_cases h : strTruthy M.background = true
  · cases ht : M.background with
    | none => rw [ht] at h; simp [strTruthy] at h
    | some s => rw [ht] at h; simp [h]
  · rw [if_neg h]
    rfl

/-- C1: for every representable Configuration Model (at most three simple filter/calculate transforms, simple tooltip slot) over fields with nonempty names, compiling, decompiling, completing against the default model and recompiling reproduces the original declarative spec on every field the decompiler covers (the `coveredView` projection: everything except the mark style hints and padding). -/
theorem c1_round_trip (M : BuilderState) (fields : List DataField)
    (hrep : representable M = true)
    (hf : (fields.all fun f => f.name ≠ "") = true) :
    coveredView (buildSpec (completeWith getDefaultBuilderState
      (parseSpecToBuilderState (buildSpec M fields))) fields) =
    coveredView (buildSpec M fields) := by
  simp only [representable, Bool.and_eq_true, decide_eq_true_eq] at hrep
  obtain ⟨⟨hlen, hsimple⟩, httl⟩ := hrep
  set M2 := completeWith getDefaultBuilderState
    (parseSpecToBuilderState (buildSpec M fields)) with hM2
  have htr := completeWith_transforms M fields hsimple
  have hw := completeWith_width M fields
  have hh := completeWith_height M fields
  have hti := completeWith_title M fields
  have hde := completeWith_description M fields
  have hbg := completeWith_background M fields
  have hw2 : (buildSpec M2 fields).width = (buildSpec M fields).width := by
    show (match M2.width with
        | Dimension.px q => some q
        | Dimension.container => none) =
      (match M.width with
        | Dimension.px q => some q
        | Dimension.container => none)
    rw [hM2, hw]
  have hh2 : (buildSpec M2 fields).height = (buildSpec M fields).height := by
    show (match M2.height with
        | Dimension.px q => some q
        | Dimension.container => none) =
      (match M.height with
        | Dimension.px q => some q
        | Dimension.container => none)
    rw [hM2, hh]
  have htr2 : (buildSpec M2 fields).transform = (buildSpec M fields).transform := by
    show (if (buildTransforms M2.transforms).length > 0 then
        some (buildTransforms M2.transforms) else none) =
      (if (buildTransforms M.transforms).length > 0 then
        some (buildTransforms M.transforms) else none)
    rw [hM2, htr]
  have hcfg : (buildSpec M2 fields).config = (buildSpec M fields).config := by
    show some (VLConfig.mk
        (if M2.width = Dimension.container then none else some 400)
        (if M2.height = Dimension.container then none else some 300)) =
      some (VLConfig.mk
        (if M.width = Dimension.container then none else some 400)
        (if M.height = Dimension.container then none else some 300))
    rw [hM2, hw, hh]
  have hti2 : (buildSpec M2 fields).title = (buildSpec M fields).title := by
    show (if strTruthy M2.title then M2.title else none) =
      (if strTruthy M.title then M.title else none)
    rw [hM2, hti]
    exact normIdem M.title
  have hde2 : (buildSpec M2 fields).description = (buildSpec M fields).description := by
    show (if strTruthy M2.description then M2.description else none) =
      (if strTruthy M.description then M.description else none)
    rw [hM2, hde]
    exact normIdem M.description
  have hbg2 : (buildSpec M2 fields).background = (buildSpec M fields).background := by
    show (if strTruthy M2.background then M2.background else none) =
      (if strTruthy M.background then M.background else none)
    rw [hM2, hbg]
    exact normIdem M.background
  have henc : (buildSpec M2 fields).encoding = (buildSpec M fields).encoding :=
    congrArg some (encoding_rt_general M.mark M2.mark
      (compileChannel M.encodings.x) (compileChannel M.encodings.y)
      (compileChannel M.encodings.color) (compileChannel M.encodings.size)
      (buildTooltip M.encodings.tooltip fields)
      M.encodings.x M.encodings.y M.encodings.color M.encodings.size
      M.encodings.tooltip fields rfl rfl rfl rfl rfl httl hf rfl rfl)
  simp only [coveredView, CoveredSpec.mk.injEq]
  exact ⟨rfl, hw2, hh2, rfl, rfl, rfl, rfl, henc, htr2, hcfg, hti2, hde2, hbg2,
    rfl, rfl, rfl, rfl, rfl⟩

/-- C1 witness: the round trip at a concrete stacked-bar model with a filter transform, auto tooltip and title. -/
theorem c1_round_trip_witness :
    representable c1WitnessModel = true ∧
    (c1WitnessFields.all fun f => f.name ≠ "") = true ∧
    coveredView (buildSpec (completeWith getDefaultBuilderState
      (parseSpecToBuilderState (buildSpec c1WitnessModel c1WitnessFields)))
      c1WitnessFields) =
    coveredView (buildSpec c1WitnessModel c1WitnessFields) :=
  ⟨by decide, by decide,
    c1_round_trip c1WitnessModel c1WitnessFields (by decide) (by decide)⟩

end VegaConfig
